import Mathlib

/-!
# Verification of the image-rendition reconciliation and grouping engine

Shallow embedding of the core data-reconciliation pipeline of
`src/ImageComparison.jsx`: normalization helpers, candidate extraction,
POV grouping and rendition assembly, the original-image index, the
comparison-group builder, the aggregate-metrics engine (Tables A and D)
and the alignment validator.

Modelling conventions for the JavaScript source:
* JS numbers that matter to the pipeline are modelled as `ℚ`; a possibly
  non-finite JS number (`NaN`/`Infinity`, as produced by `Number(x)` on
  junk) is `JSNum := Option ℚ` with `none` standing for "not finite".
* Possibly-absent strings (`null`/`undefined`/missing field) are
  `Option String` with `none` for absent.
* JS objects used as string-keyed dictionaries are insertion-ordered
  association lists, which matches the iteration-order semantics of JS
  objects for the non-integer-like keys this code uses, and of JS `Map`.
* `Array.prototype.sort` is stable per the ECMAScript spec; for a
  consistent comparator a stable sort's output is the unique sorted
  permutation keeping equal elements in input order, so it is modelled
  with the structurally recursive stable sort `List.insertionSort`
  (wrapped as `jsSort` over a `Bool` comparator).
* `String.prototype.localeCompare` is modelled as code-point
  lexicographic comparison (they agree on the lower-cased ASCII keys the
  pipeline produces); `toLowerCase`/`trim` are modelled on ASCII.
-/

set_option maxHeartbeats 1600000

namespace ImageComparison

/-- A JS number as consumed through `Number(x)`: `none` means not finite
(`NaN`, `±Infinity`), `some q` a finite value. -/
abbrev JSNum := Option ℚ

/-- `Number(x) || 0`: a non-finite (or zero) value collapses to `0`. -/
def numOr0 (n : JSNum) : ℚ := n.getD 0

/-- JS string truthiness for a possibly-absent string: truthy iff present
and non-empty. -/
def truthyStr (o : Option String) : Bool :=
  match o with
  | none => false
  | some s => s ≠ ""

/-- `x || "N/A"`-style fallback: an absent or empty string becomes the
default. -/
def strOr (o : Option String) (d : String) : String :=
  match o with
  | none => d
  | some s => if s = "" then d else s

/-- JS whitespace test for `trim` (ASCII fragment). -/
def isWS (c : Char) : Bool := c = ' ' ∨ c = '\t' ∨ c = '\n' ∨ c = '\r'

/-- `String.prototype.trim` on the character list. -/
def trimChars (l : List Char) : List Char :=
  ((l.dropWhile isWS).reverse.dropWhile isWS).reverse

/-- `String.prototype.trim` (ASCII whitespace model). -/
def jsTrim (s : String) : String := ⟨trimChars s.data⟩

/-- `String.prototype.toLowerCase` (ASCII model). -/
def jsToLower (s : String) : String := ⟨s.data.map Char.toLower⟩

/-- `p` is a prefix of `s` (character lists). -/
def isPrefixChars : List Char → List Char → Bool
  | [], _ => true
  | _ :: _, [] => false
  | p :: ps, c :: cs => p = c && isPrefixChars ps cs

/-- `String.prototype.startsWith`. -/
def jsStartsWith (s p : String) : Bool := isPrefixChars p.data s.data

/-- `pat` occurs as a contiguous substring of `s` (character lists). -/
def containsChars (s pat : List Char) : Bool :=
  match s with
  | [] => isPrefixChars pat []
  | _ :: cs => isPrefixChars pat s || containsChars cs pat

/-- `String.prototype.includes`. -/
def jsIncludes (s pat : String) : Bool := containsChars s.data pat.data

/-- `String(s || "")`: an absent value stringifies through the falsy
branch to the empty string. -/
def jsStr (o : Option String) : String := o.getD ""

/-- `const norm = (s) => String(s || "").trim().toLowerCase();` -/
def norm (s : Option String) : String := jsToLower (jsTrim (jsStr s))

/-- `normCam`: canonicalize a camera name; prefix-matched names collapse
to `front`/`rear`/`center`, other non-empty input passes through
lower-cased, empty input yields `null`. -/
def normCam (cam : Option String) : Option String :=
  let c := norm cam
  if jsStartsWith c "front" then some "front"
  else if jsStartsWith c "rear" then some "rear"
  else if jsStartsWith c "center" then some "center"
  else if c = "" then none else some c

/-- `normSide`: same policy as `normCam` for `left`/`right`/`center`. -/
def normSide (side : Option String) : Option String :=
  let s := norm side
  if jsStartsWith s "left" then some "left"
  else if jsStartsWith s "right" then some "right"
  else if jsStartsWith s "center" then some "center"
  else if s = "" then none else some s

/-- `isSlimOverview`: exact case-insensitive match. -/
def isSlimOverview (imageType : Option String) : Bool :=
  norm imageType = "slimoverview"

/-- `isZoomer`: substring match. -/
def isZoomer (imageType : Option String) : Bool :=
  jsIncludes (norm imageType) "zoomer"

/-- `isAllowedType`. -/
def isAllowedType (imageType : Option String) : Bool :=
  isSlimOverview imageType || isZoomer imageType

/-- `safeUrl`: a string with non-blank content is trimmed, anything else
becomes `null`. -/
def safeUrl (u : Option String) : Option String :=
  match u with
  | none => none
  | some s => if jsTrim s = "" then none else some (jsTrim s)

/-- `safeText`: absent or blank collapses to `"N/A"`. -/
def safeText (v : Option String) : String :=
  match v with
  | none => "N/A"
  | some s => if jsTrim s = "" then "N/A" else jsTrim s

/-- `sumActionMap`: sum of the values of a string-keyed map, coercing
each value through `Number(b) || 0`; an absent map sums to `0`. -/
def sumActionMap (m : Option (List (String × JSNum))) : ℚ :=
  match m with
  | none => 0
  | some l => l.foldl (fun a kv => a + numOr0 kv.2) 0

/-- Point-of-view descriptor carried by a raw image entry. -/
structure POV where
  simulatedCamera : Option String
  simulatedCameraSide : Option String
  serialNumber : Option Int
  originalCameraId : Option String
  deriving Repr, DecidableEq

/-- One raw image entry of a source collection, with the fields the core
pipeline consumes. `isActive` is the JS truthiness of the raw field. -/
structure RawImageEntry where
  imageType : Option String
  pov : Option POV
  rendition : Option JSNum
  activeImage : Option String
  originalImage : Option String
  originalImageUrl : Option String
  originalImageWithBackground : Option String
  originalImageWithoutBackground : Option String
  status : Option String
  isActive : Bool
  actionsCounterMap : Option (List (String × JSNum))
  deriving Repr, DecidableEq

/-- The default raw entry: every field absent / false. -/
def RawImageEntry.default : RawImageEntry :=
  ⟨none, none, none, none, none, none, none, none, none, false, none⟩

/-- `uvpaintData`: the two raw image-source collections. -/
structure UvpaintData where
  images : List RawImageEntry
  uvpaintHistoryImages : List RawImageEntry
  deriving Repr, DecidableEq

/-- One raw inspection record as fetched. -/
structure Inspection where
  inspectionId : String
  uvpaintData : Option UvpaintData
  deriving Repr, DecidableEq

/-- `pickOriginalUrl`: first non-blank of the four original-image URL
variants, trimmed; otherwise `null`. -/
def pickOriginalUrl (obj : RawImageEntry) : Option String :=
  match ([obj.originalImage, obj.originalImageUrl,
          obj.originalImageWithBackground,
          obj.originalImageWithoutBackground].find?
            (fun u => truthyTrim u)) with
  | some u => some (jsTrim (jsStr u))
  | none => none
where
  /-- `typeof u === "string" && u.trim()` for an optional string. -/
  truthyTrim (u : Option String) : Bool :=
    match u with
    | none => false
    | some s => jsTrim s ≠ ""

/-- `isPublishedUvpaint`: the raw-entry publish filter used by the
metrics engine and the validator. -/
def isPublishedUvpaint (img : RawImageEntry) : Bool :=
  img.isActive && truthyStr img.activeImage && img.pov.isSome &&
    img.imageType ≠ some "Artemis" && isAllowedType img.imageType

/-- A normalized candidate record as built by `putCandidate`. -/
structure Candidate where
  imageType : String
  bucketType : String
  status : String
  activeImage : Option String
  originalImage : Option String
  image : Option String
  source : String
  actions : ℚ
  isActive : Bool
  pov : POV
  deriving Repr, DecidableEq

/-- `scoreCandidate`: deterministic collision score — 100 for a present
active-image URL, +40 for the `isActive` flag, +30/+10 source priority. -/
def scoreCandidate (c : Candidate) : ℤ :=
  let hasActive : Bool := c.activeImage.isSome
  let isActive : Bool := c.isActive
  let srcPriority : ℤ :=
    if c.source = "images" then 30
    else if c.source = "uvpaintHistoryImages" then 10 else 0
  (if hasActive then 100 else 0) + (if isActive then 40 else 0) + srcPriority

/-- `createPOVKey`: grouping key `(bucketType, normCam, normSide)`;
`serialNumber` is deliberately ignored. -/
def createPOVKey (bucketType : String) (pov : POV) : String :=
  let cam := (normCam pov.simulatedCamera).getD "na"
  let side := (normSide pov.simulatedCameraSide).getD "na"
  bucketType ++ "_" ++ cam ++ "_" ++ side

/-- `bucketTypeOf`: the bucket category of an image type, `null` when
excluded. -/
def bucketTypeOf (imageType : Option String) : Option String :=
  if isSlimOverview imageType then some "SlimOverview"
  else if isZoomer imageType then some "Zoomer"
  else none

/-- One POV group row of `rowsByKey`: candidates bucketed by rendition
number (insertion-ordered, unique keys) plus the set of source tags
seen (insertion-ordered, deduplicated). -/
structure Row where
  bucketType : String
  pov : POV
  renditions : List (ℚ × List Candidate)
  sourcesSet : List String
  deriving Repr, DecidableEq

/-- Append a candidate to the bucket of rendition `r`, creating the
bucket at the end when absent (JS `row.renditions[rNum].push`). -/
def pushRendition (rs : List (ℚ × List Candidate)) (r : ℚ) (c : Candidate) :
    List (ℚ × List Candidate) :=
  match rs with
  | [] => [(r, [c])]
  | (k, l) :: t =>
      if k = r then (k, l ++ [c]) :: t else (k, l) :: pushRendition t r c

/-- `Set.prototype.add` on an insertion-ordered deduplicated list. -/
def addToSet (s : List String) (x : String) : List String :=
  if x ∈ s then s else s ++ [x]

/-- The arguments `putCandidate` is invoked with at its two call sites. -/
structure PutArgs where
  imageType : Option String
  pov : Option POV
  rendition : JSNum
  activeImage : Option String
  status : Option String
  source : Option String
  actions : ℚ
  originalImage : Option String
  isActive : Bool
  deriving Repr, DecidableEq

/-- `ensureRow` on the insertion-ordered `rowsByKey` association list. -/
def ensureRow (rows : List (String × Row)) (key : String)
    (bucketType : String) (pov : POV) : List (String × Row) :=
  match rows.lookup key with
  | some _ => rows
  | none => rows ++ [(key, ⟨bucketType, pov, [], []⟩)]

/-- In-place update of the row stored at `key`. -/
def updateRow (rows : List (String × Row)) (key : String)
    (f : Row → Row) : List (String × Row) :=
  rows.map (fun kv => if kv.1 = key then (kv.1, f kv.2) else kv)

/-- `putCandidate`: filters the entry, materializes the candidate and
stores it in the POV-keyed, rendition-bucketed collision map. The row is
created before the rendition-number check, so a candidate with a
non-finite rendition still creates its (empty) row. -/
def putCandidate (rows : List (String × Row)) (p : PutArgs) :
    List (String × Row) :=
  match p.pov with
  | none => rows
  | some pov =>
    if !isAllowedType p.imageType then rows
    else
      match bucketTypeOf p.imageType with
      | none => rows
      | some bucketType =>
        let key := createPOVKey bucketType pov
        let rows := ensureRow rows key bucketType pov
        match p.rendition with
        | none => rows
        | some rNum =>
          let src := strOr p.source "N/A"
          let candidate : Candidate :=
            { imageType := strOr p.imageType "N/A"
              bucketType := bucketType
              status := strOr p.status "N/A"
              activeImage := safeUrl p.activeImage
              originalImage := safeUrl p.originalImage
              image := safeUrl p.activeImage
              source := src
              actions := p.actions
              isActive := p.isActive
              pov := pov }
          updateRow rows key (fun row =>
            { row with
              sourcesSet := addToSet row.sourcesSet src
              renditions := pushRendition row.renditions rNum candidate })

/-- The `putCandidate` call for one entry of `uvpaintData.images`
(current pipeline; rendition defaults to 3), including the call-site
guards. -/
def putFromImages (rows : List (String × Row)) (img : RawImageEntry) :
    List (String × Row) :=
  if img.imageType = some "Artemis" then rows
  else if img.pov.isNone then rows
  else if !isAllowedType img.imageType then rows
  else
    putCandidate rows
      { imageType := img.imageType
        pov := img.pov
        rendition := img.rendition.getD (some 3)
        activeImage := img.activeImage
        status := img.status
        source := some "images"
        actions :=
          match img.actionsCounterMap with
          | some m => sumActionMap (some m)
          | none => 0
        originalImage := pickOriginalUrl img
        isActive := img.isActive }

/-- The `putCandidate` call for one entry of
`uvpaintData.uvpaintHistoryImages` (historical pipeline; rendition
defaults to 1). -/
def putFromHistory (rows : List (String × Row)) (img : RawImageEntry) :
    List (String × Row) :=
  if img.imageType = some "Artemis" then rows
  else if img.pov.isNone then rows
  else if !isAllowedType img.imageType then rows
  else
    putCandidate rows
      { imageType := img.imageType
        pov := img.pov
        rendition := img.rendition.getD (some 1)
        activeImage := img.activeImage
        status := img.status
        source := some "uvpaintHistoryImages"
        actions :=
          match img.actionsCounterMap with
          | some m => sumActionMap (some m)
          | none => 0
        originalImage := pickOriginalUrl img
        isActive := img.isActive }

/-- Candidate extraction: walk the two source collections in order and
accumulate `rowsByKey`. -/
def extractRows (d : UvpaintData) : List (String × Row) :=
  (d.uvpaintHistoryImages.foldl putFromHistory
    (d.images.foldl putFromImages []))

/-- One entry of the original-image index `originalsByCamSide`. -/
structure OriginalEntry where
  url : String
  source : String
  priority : ℤ
  obj : RawImageEntry
  deriving Repr, DecidableEq

/-- `ORIGINAL_PRIORITY[sourceName] ?? 0`. -/
def originalPriority (sourceName : String) : ℤ :=
  if sourceName = "images" then 30
  else if sourceName = "uvpaintHistoryImages" then 10 else 0

/-- Overwrite the entry stored at `key` (JS object property assignment
keeps the key's original position). -/
def updateOriginal (idx : List (String × OriginalEntry)) (key : String)
    (e : OriginalEntry) : List (String × OriginalEntry) :=
  idx.map (fun kv => if kv.1 = key then (kv.1, e) else kv)

/-- `considerOriginal`: admit a raw entry into the original-image index —
only SlimOverview-classified entries with a resolvable camera, side and
original-image URL; on collision a strictly higher source priority
replaces the stored entry. -/
def considerOriginal (idx : List (String × OriginalEntry))
    (img : RawImageEntry) (sourceName : String) :
    List (String × OriginalEntry) :=
  match img.pov with
  | none => idx
  | some pov =>
    if !isSlimOverview img.imageType then idx
    else
      match normCam pov.simulatedCamera, normSide pov.simulatedCameraSide with
      | some cam, some side =>
        let key := cam ++ "_" ++ side
        let url? :=
          match safeUrl img.originalImage with
          | some u => some u
          | none => safeUrl (pickOriginalUrl img)
        match url? with
        | none => idx
        | some url =>
          let pr := originalPriority sourceName
          match idx.lookup key with
          | none => idx ++ [(key, ⟨url, sourceName, pr, img⟩)]
          | some existing =>
              if pr > existing.priority then
                updateOriginal idx key ⟨url, sourceName, pr, img⟩
              else idx
      | _, _ => idx

/-- Build the original-image index: scan `images` then
`uvpaintHistoryImages`. -/
def buildOriginals (d : UvpaintData) : List (String × OriginalEntry) :=
  d.uvpaintHistoryImages.foldl
    (fun i img => considerOriginal i img "uvpaintHistoryImages")
    (d.images.foldl (fun i img => considerOriginal i img "images") [])

/-- The ECMAScript stable sort for a comparator whose `≤ 0` relation is
`le`: the unique `le`-sorted permutation keeping `le`-equivalent
elements in input order. -/
def jsSort (le : α → α → Bool) (l : List α) : List α :=
  l.insertionSort (fun a b => le a b = true)

/-- Candidate ordering used by `pickBestAt`'s
`sort((a, b) => scoreCandidate(b) - scoreCandidate(a))`: `a` may stay
before `b` iff the comparator is `≤ 0`. -/
def scoreDescLE (a b : Candidate) : Bool :=
  scoreCandidate b ≤ scoreCandidate a

/-- `pickBestAt` on a rendition bucket: stable-sort by score descending
and take the first element (`null` on an empty bucket). -/
def pickBest (l : List Candidate) : Option Candidate :=
  (jsSort scoreDescLE l).head?

/-- `pickBestAt` proper: look the bucket up in the row (`|| []`). -/
def pickBestAt (row : Row) (rNum : ℚ) : Option Candidate :=
  pickBest ((row.renditions.lookup rNum).getD [])

/-- The distinct rendition numbers of a row, sorted descending
(`Object.keys(row.renditions).map(Number).filter(isFinite).sort((a,b)=>b-a)`;
all stored keys are finite). -/
def renditionNumsOf (row : Row) : List ℚ :=
  jsSort (fun a b => decide (b ≤ a)) (row.renditions.map (fun kv => kv.1))

/-- The slot data kept in `metadata.renditionData` for the Previous and
Latest slots. -/
structure RendData where
  imageType : String
  isActive : Bool
  activeImage : Option String
  deriving Repr, DecidableEq

/-- The `safeText` summary kept in `metadata.cardInfo`. -/
structure CardInfo where
  imageType : String
  status : String
  originalImage : String
  activeImage : String
  deriving Repr, DecidableEq

/-- The group sort key — `typeOrder` from
`IMAGE_TYPE_ORDER[bucketType] ?? 999`, camera and side lower-cased. -/
structure SortKey where
  typeOrder : ℕ
  cam : String
  side : String
  deriving Repr, DecidableEq

/-- The metadata record of a comparison group (presentation-only
`vehicle` is omitted). -/
structure GroupMetadata where
  inspectionId : String
  pov : POV
  bucketType : String
  renditions0 : Option ℚ
  renditions1 : Option ℚ
  renditions2 : Option String
  statuses : List String
  sources : List String
  actions0 : Option ℚ
  actions1 : Option ℚ
  totalVersions : ℕ
  povSources : List String
  cardInfo0 : Option CardInfo
  cardInfo1 : Option CardInfo
  cardInfo2 : Option CardInfo
  renditionData0 : Option RendData
  renditionData1 : Option RendData
  published : Bool
  groupKey : String
  camSideKey : String
  deriving Repr, DecidableEq

/-- A comparison group — the primary output entity. -/
structure Group where
  id : String
  name : String
  sortKey : SortKey
  images : List (Option String)
  metadata : GroupMetadata
  deriving Repr, DecidableEq

/-- `d.isActive && d.activeImage` for one `renditionData` slot. -/
def slotPublished (d : Option RendData) : Bool :=
  match d with
  | none => false
  | some dd => dd.isActive && truthyStr dd.activeImage

/-- `isRowPublished`: some Previous/Latest slot holds an `isActive`
candidate with a present active image. -/
def isRowPublished (rd0 rd1 : Option RendData) : Bool :=
  slotPublished rd0 || slotPublished rd1

/-- `IMAGE_TYPE_ORDER[bucketType] ?? 999`. -/
def imageTypeOrder (bucketType : String) : ℕ :=
  if bucketType = "SlimOverview" then 0
  else if bucketType = "Zoomer" then 1 else 999

/-- The per-slot `safeText` card info of a chosen candidate. -/
def cardInfoOfCandidate (c : Candidate) : CardInfo :=
  ⟨safeText (some c.imageType), safeText (some c.status),
   safeText c.originalImage, safeText c.activeImage⟩

/-- The `renditionData` slot of a chosen candidate. -/
def rendDataOfCandidate (c : Candidate) : RendData :=
  ⟨c.imageType, c.isActive, c.activeImage⟩

/-- The body of the group assembly once the descending rendition
numbers `latestR :: rest` of the row are known: resolve Previous/Latest
via the collision score, resolve Original from the side index, and fill
the fixed 3-slot layout. -/
def buildGroupCore (inspectionId : String)
    (origIdx : List (String × OriginalEntry)) (key : String) (row : Row)
    (latestR : ℚ) (rest : List ℚ) : Group :=
    let renditionNums := latestR :: rest
    let prevR : Option ℚ := rest.head?
    let latest := pickBestAt row latestR
    let prev :=
      match prevR with
      | some r => pickBestAt row r
      | none => none
    let cam := normCam row.pov.simulatedCamera
    let side := normSide row.pov.simulatedCameraSide
    let camSideKey : Option String :=
      match cam, side with
      | some c, some s => some (c ++ "_" ++ s)
      | _, _ => none
    let originalEntry : Option OriginalEntry :=
      match camSideKey with
      | some k => origIdx.lookup k
      | none => none
    let originalUrl : Option String := originalEntry.map (fun e => e.url)
    let originalFrom : String :=
      (originalEntry.map (fun e => e.source)).getD "N/A"
    let originalObj : Option RawImageEntry :=
      originalEntry.map (fun e => e.obj)
    let cameraLabel :=
      jsTrim (strOr row.pov.simulatedCamera "N/A" ++ " " ++
        jsStr row.pov.simulatedCameraSide)
    let rd0 := prev.map rendDataOfCandidate
    let rd1 := latest.map rendDataOfCandidate
    let bucketType := row.bucketType
    { id := inspectionId ++ "_" ++ key
      name := cameraLabel ++ " (" ++ bucketType ++ ")"
      sortKey :=
        { typeOrder := imageTypeOrder bucketType
          cam := jsToLower (jsStr cam)
          side := jsToLower (jsStr side) }
      images :=
        [safeUrl (prev.bind (fun p => p.image)),
         safeUrl (latest.bind (fun p => p.image)),
         safeUrl originalUrl]
      metadata :=
        { inspectionId := inspectionId
          pov := row.pov
          bucketType := bucketType
          renditions0 := prevR
          renditions1 := some latestR
          renditions2 := originalUrl.map (fun _ => "OG")
          statuses :=
            [(prev.map (fun p => p.status)).getD
               (if prevR.isSome then "N/A" else "Empty"),
             (latest.map (fun p => p.status)).getD "N/A",
             if originalUrl.isSome then "Original" else "Empty"]
          sources :=
            [(prev.map (fun p => p.source)).getD
               (if prevR.isSome then "N/A" else "Empty"),
             (latest.map (fun p => p.source)).getD "N/A",
             if originalUrl.isSome then
               "SlimOverview_original:" ++ originalFrom
             else "Empty"]
          actions0 := prev.map (fun p => p.actions)
          actions1 := latest.map (fun p => p.actions)
          totalVersions := renditionNums.length
          povSources := row.sourcesSet
          cardInfo0 := prev.map cardInfoOfCandidate
          cardInfo1 := latest.map cardInfoOfCandidate
          cardInfo2 :=
            originalObj.map (fun o =>
              ⟨safeText o.imageType, safeText o.status,
               safeText o.originalImage, safeText o.activeImage⟩)
          renditionData0 := rd0
          renditionData1 := rd1
          published := isRowPublished rd0 rd1
          groupKey := key
          camSideKey := camSideKey.getD "N/A" } }

/-- Assemble one comparison group from a POV row; a row with no
(finite) rendition numbers yields nothing. -/
def buildGroup (inspectionId : String)
    (origIdx : List (String × OriginalEntry)) (key : String) (row : Row) :
    Option Group :=
  match renditionNumsOf row with
  | [] => none
  | latestR :: rest => some (buildGroupCore inspectionId origIdx key row latestR rest)

/-- The four-component sort key of the final comparator: published
groups first (key `0`), then bucket rank, then camera, then side, all
lexicographic. -/
def sortTuple (g : Group) : ℕ ×ₗ ℕ ×ₗ String ×ₗ String :=
  toLex (((if g.metadata.published then 0 else 1) : ℕ),
    toLex (g.sortKey.typeOrder, toLex (g.sortKey.cam, g.sortKey.side)))

/-- `a` may stay before `b` under the final group comparator
(`comparator(a, b) ≤ 0`). -/
def groupLE (a b : Group) : Bool := decide (sortTuple a ≤ sortTuple b)

/-- The unsorted group list of one inspection. -/
def buildGroups (inspectionId : String) (d : UvpaintData) : List Group :=
  (extractRows d).filterMap
    (fun kv => buildGroup inspectionId (buildOriginals d) kv.1 kv.2)

/-- `processInspectionData`: the full per-inspection pipeline — extract,
assemble, then stable-sort by the published/bucket/camera/side key. -/
def processInspectionData (insp : Inspection) : List Group :=
  match insp.uvpaintData with
  | none => []
  | some d => jsSort groupLE (buildGroups insp.inspectionId d)

/-- One loaded inspection as the metrics engine and the validator see
it: the raw fetched record plus the comparison groups produced for it. -/
structure ProcessedInspection where
  inspectionId : String
  rawInspection : Option Inspection
  comparisons : List Group
  deriving Repr, DecidableEq

/-- The published raw entries of an inspection's current-pipeline
collection (`(uvpaintData?.images || []).filter(isPublishedUvpaint)`). -/
def publishedUvpaintOf (insp : ProcessedInspection) : List RawImageEntry :=
  (((insp.rawInspection.bind (fun r => r.uvpaintData)).map
      (fun d => d.images)).getD []).filter isPublishedUvpaint

/-- The actions value the pipeline attaches to a raw entry. -/
def rawActions (img : RawImageEntry) : ℚ := sumActionMap img.actionsCounterMap

/-- Previous/Latest totals and counts accumulated over a list of
comparison groups (`metadata.actions` slots 0 and 1; a slot counts iff
it is not the `"N/A"` placeholder). -/
def slotTotals (comps : List Group) : ℚ × ℕ × ℚ × ℕ :=
  comps.foldl
    (fun acc comp =>
      let acc1 :=
        match comp.metadata.actions0 with
        | some q => (acc.1 + numOr0 (some q), acc.2.1 + 1, acc.2.2.1, acc.2.2.2)
        | none => acc
      match comp.metadata.actions1 with
      | some q => (acc1.1, acc1.2.1, acc1.2.2.1 + numOr0 (some q), acc1.2.2.2 + 1)
      | none => acc1)
    (0, 0, 0, 0)

/-- The Previous-vs-Latest percent change, as computed (twice, with the
same expression) by `computeAggregatedMetrics` for Table A and Table D:
division only when the previous mean is positive, else `100` when the
latest mean is positive, else `0`. -/
def actionsPercentChange (avgPrev avgLatest : ℚ) : ℚ :=
  if avgPrev > 0 then (avgLatest - avgPrev) / avgPrev * 100
  else if avgLatest > 0 then 100 else 0

/-- One Table A (per-inspection) row; presentation-only fields (label,
trend indicator strings) are omitted. -/
structure TableARow where
  inspectionIndex : ℕ
  inspectionId : String
  publishedCount : ℕ
  imagesWithActions : ℕ
  avgActionsPerImage : ℚ
  avgPreviousActions : ℚ
  avgLatestActions : ℚ
  actionsDifference : ℚ
  actionsPercentChange : ℚ
  deriving Repr, DecidableEq

/-- The Table A row of one inspection (`idx` is its 0-based position). -/
def computeTableARow (idx : ℕ) (insp : ProcessedInspection) : TableARow :=
  let publishedUvpaint := publishedUvpaintOf insp
  let publishedCount := publishedUvpaint.length
  let totalActions :=
    publishedUvpaint.foldl (fun a img => a + rawActions img) 0
  let imagesWithActions :=
    (publishedUvpaint.filter (fun img => rawActions img > 0)).length
  let avgActionsPerImage :=
    if publishedCount > 0 then totalActions / publishedCount else 0
  let t := slotTotals insp.comparisons
  let avgPreviousActions := if t.2.1 > 0 then t.1 / t.2.1 else 0
  let avgLatestActions := if t.2.2.2 > 0 then t.2.2.1 / t.2.2.2 else 0
  { inspectionIndex := idx + 1
    inspectionId := insp.inspectionId
    publishedCount := publishedCount
    imagesWithActions := imagesWithActions
    avgActionsPerImage := avgActionsPerImage
    avgPreviousActions := avgPreviousActions
    avgLatestActions := avgLatestActions
    actionsDifference := avgLatestActions - avgPreviousActions
    actionsPercentChange :=
      actionsPercentChange avgPreviousActions avgLatestActions }

/-- The accumulator row of the `aggD` map. -/
structure DAgg where
  imageType : String
  simulatedCamera : String
  simulatedCameraSide : String
  originalCameraId : String
  images : ℕ
  totalActions : ℚ
  previousTotalActions : ℚ
  previousCount : ℕ
  latestTotalActions : ℚ
  latestCount : ℕ
  deriving Repr, DecidableEq

/-- The Table D map key: raw field values (empty falling back to
`"N/A"`) joined with `"|"`. -/
def tableDKey (imageType simulatedCamera simulatedCameraSide : Option String)
    (originalCameraId : String) : String :=
  strOr imageType "N/A" ++ "|" ++ strOr simulatedCamera "N/A" ++ "|" ++
    strOr simulatedCameraSide "N/A" ++ "|" ++
    strOr (some originalCameraId) "N/A"

/-- `addToTableD`: aggregate one published raw image into `aggD`, keyed
by its raw `imageType` (not its bucket category) and POV fields. -/
def addToTableD (agg : List (String × DAgg)) (img : RawImageEntry) :
    List (String × DAgg) :=
  let imageType := img.imageType
  let simulatedCamera := img.pov.bind (fun p => p.simulatedCamera)
  let simulatedCameraSide := img.pov.bind (fun p => p.simulatedCameraSide)
  let originalCameraId :=
    strOr (img.pov.bind (fun p => p.originalCameraId)) "N/A"
  let key := tableDKey imageType simulatedCamera simulatedCameraSide
    originalCameraId
  let agg : List (String × DAgg) :=
    match agg.lookup key with
    | some _ => agg
    | none =>
        agg ++ [(key,
          { imageType := strOr imageType "N/A"
            simulatedCamera := strOr simulatedCamera "N/A"
            simulatedCameraSide := strOr simulatedCameraSide "N/A"
            originalCameraId := strOr (some originalCameraId) "N/A"
            images := 0, totalActions := 0
            previousTotalActions := 0, previousCount := 0
            latestTotalActions := 0, latestCount := 0 })]
  agg.map (fun kv =>
    if kv.1 = key then
      (kv.1, { kv.2 with
        images := kv.2.images + 1
        totalActions := kv.2.totalActions + numOr0 (some (rawActions img)) })
    else kv)

/-- The accumulator row of the `aggDComparisons` map (Previous/Latest
actions by bucket type and POV). -/
structure CAgg where
  imageType : String
  simulatedCamera : String
  simulatedCameraSide : String
  originalCameraId : String
  previousTotalActions : ℚ
  previousCount : ℕ
  latestTotalActions : ℚ
  latestCount : ℕ
  deriving Repr, DecidableEq

/-- Aggregate one comparison group into `aggDComparisons`, keyed by its
bucket type and POV fields. -/
def addComparison (agg : List (String × CAgg)) (comp : Group) :
    List (String × CAgg) :=
  let pov := comp.metadata.pov
  let key := tableDKey (some comp.metadata.bucketType) pov.simulatedCamera
    pov.simulatedCameraSide (strOr pov.originalCameraId "N/A")
  let agg : List (String × CAgg) :=
    match agg.lookup key with
    | some _ => agg
    | none =>
        agg ++ [(key,
          { imageType := strOr (some comp.metadata.bucketType) "N/A"
            simulatedCamera := strOr pov.simulatedCamera "N/A"
            simulatedCameraSide := strOr pov.simulatedCameraSide "N/A"
            originalCameraId := strOr pov.originalCameraId "N/A"
            previousTotalActions := 0, previousCount := 0
            latestTotalActions := 0, latestCount := 0 })]
  agg.map (fun kv =>
    if kv.1 = key then
      (kv.1,
        let r := kv.2
        let r :=
          match comp.metadata.actions0 with
          | some q =>
              { r with previousTotalActions := r.previousTotalActions +
                  numOr0 (some q), previousCount := r.previousCount + 1 }
          | none => r
        match comp.metadata.actions1 with
        | some q =>
            { r with latestTotalActions := r.latestTotalActions +
                numOr0 (some q), latestCount := r.latestCount + 1 }
        | none => r)
    else kv)

/-- Merge one `aggDComparisons` row into `aggD`: an existing row gets
its Previous/Latest fields overwritten, a missing key is appended with
zero published-image data. -/
def mergeComparison (agg : List (String × DAgg)) (kv : String × CAgg) :
    List (String × DAgg) :=
  match agg.lookup kv.1 with
  | some _ =>
      agg.map (fun kw =>
        if kw.1 = kv.1 then
          (kw.1, { kw.2 with
            previousTotalActions := kv.2.previousTotalActions
            previousCount := kv.2.previousCount
            latestTotalActions := kv.2.latestTotalActions
            latestCount := kv.2.latestCount })
        else kw)
  | none =>
      agg ++ [(kv.1,
        { imageType := kv.2.imageType
          simulatedCamera := kv.2.simulatedCamera
          simulatedCameraSide := kv.2.simulatedCameraSide
          originalCameraId := kv.2.originalCameraId
          images := 0, totalActions := 0
          previousTotalActions := kv.2.previousTotalActions
          previousCount := kv.2.previousCount
          latestTotalActions := kv.2.latestTotalActions
          latestCount := kv.2.latestCount })]

/-- One finalized Table D (per-camera/type heatmap) row; trend strings
omitted. -/
structure TableDRow where
  imageType : String
  simulatedCamera : String
  simulatedCameraSide : String
  originalCameraId : String
  images : ℕ
  totalActions : ℚ
  previousTotalActions : ℚ
  previousCount : ℕ
  latestTotalActions : ℚ
  latestCount : ℕ
  avgActionsPerImage : ℚ
  avgPreviousActions : ℚ
  avgLatestActions : ℚ
  actionsDifference : ℚ
  actionsPercentChange : ℚ
  deriving Repr, DecidableEq

/-- Finalize one `aggD` row into a Table D row. -/
def finalizeDRow (r : DAgg) : TableDRow :=
  let avgActionsPerImage := if r.images > 0 then r.totalActions / r.images else 0
  let avgPreviousActions :=
    if r.previousCount > 0 then r.previousTotalActions / r.previousCount else 0
  let avgLatestActions :=
    if r.latestCount > 0 then r.latestTotalActions / r.latestCount else 0
  { imageType := r.imageType
    simulatedCamera := r.simulatedCamera
    simulatedCameraSide := r.simulatedCameraSide
    originalCameraId := r.originalCameraId
    images := r.images
    totalActions := r.totalActions
    previousTotalActions := r.previousTotalActions
    previousCount := r.previousCount
    latestTotalActions := r.latestTotalActions
    latestCount := r.latestCount
    avgActionsPerImage := avgActionsPerImage
    avgPreviousActions := avgPreviousActions
    avgLatestActions := avgLatestActions
    actionsDifference := avgLatestActions - avgPreviousActions
    actionsPercentChange :=
      actionsPercentChange avgPreviousActions avgLatestActions }

/-- Table D row ordering: `sort((a, b) => b.avgActionsPerImage -
a.avgActionsPerImage)`, i.e. descending mean actions per published
image. -/
def tableDLE (a b : TableDRow) : Bool :=
  b.avgActionsPerImage ≤ a.avgActionsPerImage

/-- `computeAggregatedMetrics`: the per-inspection Table A rows and the
cross-inspection Table D heatmap rows. -/
def computeAggregatedMetrics (l : List ProcessedInspection) :
    List TableARow × List TableDRow :=
  let aggDComparisons :=
    l.foldl (fun agg insp => insp.comparisons.foldl addComparison agg) []
  let tableA := l.enum.map (fun ia => computeTableARow ia.1 ia.2)
  let aggD :=
    l.foldl
      (fun agg insp => (publishedUvpaintOf insp).foldl addToTableD agg) []
  let merged := aggDComparisons.foldl mergeComparison aggD
  let tableD :=
    jsSort tableDLE (merged.map (fun kv => finalizeDRow kv.2))
  (tableA, tableD)

/-- The validator's per-inspection metrics-side publish count. -/
def metricsCountOf (insp : ProcessedInspection) : ℕ :=
  (publishedUvpaintOf insp).length

/-- One Previous/Latest slot's contribution to the card-side counts:
`(published, generated)`; a slot with no active image contributes
nothing. -/
def slotCardCount (d : Option RendData) : ℕ × ℕ :=
  match d with
  | none => (0, 0)
  | some dd =>
      if !truthyStr dd.activeImage then (0, 0)
      else if dd.isActive then (1, 0) else (0, 1)

/-- The card-side `(published, generated)` counts over an inspection's
comparison groups (Previous and Latest slots only). -/
def cardCountsOf (comps : List Group) : ℕ × ℕ :=
  comps.foldl
    (fun acc comp =>
      let p0 := slotCardCount comp.metadata.renditionData0
      let p1 := slotCardCount comp.metadata.renditionData1
      (acc.1 + p0.1 + p1.1, acc.2 + p0.2 + p1.2))
    (0, 0)

/-- A recorded mismatch `{inspectionId, metricsCount, cardPublishedCount,
cardGeneratedCount, difference}`. -/
structure MismatchEntry where
  inspectionId : String
  inspectionIndex : ℕ
  metricsCount : ℕ
  cardPublishedCount : ℕ
  cardGeneratedCount : ℕ
  difference : ℕ
  deriving Repr, DecidableEq

/-- One `breakdown.byInspection` entry. -/
structure BreakdownEntry where
  inspectionId : String
  inspectionIndex : ℕ
  metricsPublished : ℕ
  cardPublished : ℕ
  cardGenerated : ℕ
  comparisons : ℕ
  deriving Repr, DecidableEq

/-- The validator's result record. -/
structure Validation where
  totalPublishedInMetrics : ℕ
  totalPublishedInCards : ℕ
  totalGeneratedInCards : ℕ
  mismatches : List MismatchEntry
  breakdownByInspection : List BreakdownEntry
  deriving Repr, DecidableEq

/-- One step of the validator over the indexed inspection list:
recompute the publish count from the groups' Previous/Latest slots,
compare with the metrics-side count, and record a mismatch entry when
the absolute difference is nonzero. -/
def validateStep (v : Validation) (ia : ℕ × ProcessedInspection) : Validation :=
  let idx := ia.1
  let insp := ia.2
  let metricsCount := metricsCountOf insp
  let cards := cardCountsOf insp.comparisons
  let diff := ((metricsCount : ℤ) - cards.1).natAbs
  { totalPublishedInMetrics := v.totalPublishedInMetrics + metricsCount
    totalPublishedInCards := v.totalPublishedInCards + cards.1
    totalGeneratedInCards := v.totalGeneratedInCards + cards.2
    mismatches :=
      if diff > 0 then
        v.mismatches ++
          [{ inspectionId := insp.inspectionId
             inspectionIndex := idx + 1
             metricsCount := metricsCount
             cardPublishedCount := cards.1
             cardGeneratedCount := cards.2
             difference := diff }]
      else v.mismatches
    breakdownByInspection :=
      v.breakdownByInspection ++
        [{ inspectionId := insp.inspectionId
           inspectionIndex := idx + 1
           metricsPublished := metricsCount
           cardPublished := cards.1
           cardGenerated := cards.2
           comparisons := insp.comparisons.length }] }

/-- `validateMetricsAlignment`: fold the validator step over all loaded
inspections. -/
def validateMetricsAlignment (l : List ProcessedInspection) : Validation :=
  l.enum.foldl validateStep ⟨0, 0, 0, [], []⟩

/-! ## Definitions used by the claim statements, counterexamples and
witnesses -/

/-- The publish flag of the data model: `isActive` together with a
present, non-empty active image. -/
def publishFlagged (img : RawImageEntry) : Bool :=
  img.isActive && truthyStr img.activeImage

/-- The collision score as the specification's sentence states it: the
`+40` bonus is conditioned on the full publish flag (`isActive` AND a
present active image). Kept as a second definition, to be compared with
`scoreCandidate`, which follows the source (where `+40` needs only
`isActive`). -/
def specScoreCandidate (c : Candidate) : ℤ :=
  (if c.activeImage.isSome then 100 else 0) +
  (if c.isActive && c.activeImage.isSome then 40 else 0) +
  (if c.source = "images" then 30
   else if c.source = "uvpaintHistoryImages" then 10 else 0)

/-- The assembly's collision-selection property at one rendition bucket
of a POV group: exactly one candidate is picked; it belongs to the
bucket, its score is maximal there, and every candidate placed earlier
in the bucket (i.e. earlier in input order) has a strictly smaller
score, so score ties go to the earliest candidate. -/
def FirstMaxSelection (row : Row) (r : ℚ) : Prop :=
  ∃ c l₁ l₂, pickBestAt row r = some c ∧
    (row.renditions.lookup r).getD [] = l₁ ++ c :: l₂ ∧
    (∀ d ∈ (row.renditions.lookup r).getD [],
      scoreCandidate d ≤ scoreCandidate c) ∧
    (∀ d ∈ l₁, scoreCandidate d < scoreCandidate c)

/-- The rendition-slot policy for one POV row: an empty row is never
emitted; an emitted group carries the highest rendition number in the
Latest slot, the second-highest (when one exists) in the Previous slot,
both slots filled from exactly those two rendition buckets, and no
further rendition in any slot. -/
def RenditionSlotAssignment (inspId : String)
    (orig : List (String × OriginalEntry)) (key : String) (row : Row) :
    Prop :=
  (row.renditions = [] → buildGroup inspId orig key row = none) ∧
  (∀ g, buildGroup inspId orig key row = some g →
    ∃ latestR, g.metadata.renditions1 = some latestR ∧
      latestR ∈ row.renditions.map Prod.fst ∧
      (∀ r ∈ row.renditions.map Prod.fst, r ≤ latestR) ∧
      g.metadata.renditionData1 =
        (pickBestAt row latestR).map rendDataOfCandidate ∧
      g.metadata.actions1 = (pickBestAt row latestR).map (fun c => c.actions) ∧
      ((g.metadata.renditions0 = none ∧
          row.renditions.map Prod.fst = [latestR] ∧
          g.metadata.renditionData0 = none ∧ g.metadata.actions0 = none) ∨
        (∃ prevR, g.metadata.renditions0 = some prevR ∧
          prevR ∈ row.renditions.map Prod.fst ∧ prevR < latestR ∧
          (∀ r ∈ row.renditions.map Prod.fst, r ≠ latestR → r ≤ prevR) ∧
          g.metadata.renditionData0 =
            (pickBestAt row prevR).map rendDataOfCandidate ∧
          g.metadata.actions0 = (pickBestAt row prevR).map (fun c => c.actions))))

/-- What a single-rendition POV row must produce: the group is emitted,
its Latest slot is filled from the single rendition, and the Previous
slot is the `null`/`"Empty"` placeholder triple. -/
def SingleRenditionEmission (inspId : String)
    (orig : List (String × OriginalEntry)) (key : String) (row : Row)
    (r : ℚ) : Prop :=
  ∃ c g, pickBestAt row r = some c ∧
    buildGroup inspId orig key row = some g ∧
    g.metadata.renditions0 = none ∧
    g.metadata.renditions1 = some r ∧
    g.images.getD 0 none = none ∧
    g.metadata.statuses.getD 0 "" = "Empty" ∧
    g.metadata.sources.getD 0 "" = "Empty" ∧
    g.metadata.renditionData0 = none ∧
    g.metadata.renditionData1 = some (rendDataOfCandidate c) ∧
    g.metadata.actions1 = some c.actions

/-- A front/left POV without serial number. -/
def povFL : POV := ⟨some "Front", some "Left", none, none⟩

/-- C1 counterexample, current-pipeline entry: rendition 3, no active
image, not `isActive`. -/
def entryC1cur : RawImageEntry :=
  { RawImageEntry.default with
    imageType := some "SlimOverview", pov := some povFL,
    rendition := some (some 3) }

/-- C1 counterexample, historical entry: same POV and rendition, no
active image, but `isActive`. -/
def entryC1hist : RawImageEntry :=
  { RawImageEntry.default with
    imageType := some "SlimOverview", pov := some povFL,
    rendition := some (some 3), isActive := true }

/-- C1 counterexample inspection: the two entries collide at rendition 3
of the same POV group. -/
def inspC1 : Inspection := ⟨"C1", some ⟨[entryC1cur], [entryC1hist]⟩⟩

/-- A candidate with the minimal score (no active image, unknown
source). -/
def candLow : Candidate :=
  ⟨"SlimOverview", "SlimOverview", "N/A", none, none, none, "N/A", 0,
   false, povFL⟩

/-- A candidate with a high score (active image, `isActive`,
current-pipeline source). -/
def candHigh : Candidate :=
  ⟨"SlimOverview", "SlimOverview", "N/A", some "u", none, some "u",
   "images", 0, true, povFL⟩

/-- Witness row for the collision selection: two candidates of
different score collide at rendition 3. -/
def rowW1 : Row := ⟨"SlimOverview", povFL, [(3, [candLow, candHigh])], ["images"]⟩

/-- A published raw entry at the given rendition (front/left
SlimOverview). -/
def entryW2 (r : ℚ) : RawImageEntry :=
  { RawImageEntry.default with
    imageType := some "SlimOverview", pov := some povFL,
    rendition := some (some r), activeImage := some "u", isActive := true }

/-- Witness data with renditions 1, 3 and 5 in one POV group. -/
def dW2 : UvpaintData := ⟨[entryW2 1, entryW2 3, entryW2 5], []⟩

/-- The single POV row extracted from `dW2`. -/
def rowW2 : Row :=
  ((extractRows dW2).head?.map Prod.snd).getD ⟨"", povFL, [], []⟩

/-- C5 counterexample entry: publish-flagged (active, with an active
image) but with no POV, so no comparison group can contain it. -/
def entryC5 : RawImageEntry :=
  { RawImageEntry.default with
    imageType := some "SlimOverview", activeImage := some "u",
    isActive := true }

/-- C5 counterexample inspection. -/
def inspC5 : Inspection := ⟨"C5", some ⟨[entryC5], []⟩⟩

/-- C5 counterexample processed inspection, with the comparison groups
the pipeline actually produces for it (none). -/
def procC5 : ProcessedInspection := ⟨"C5", some inspC5, processInspectionData inspC5⟩

/-- C6 counterexample entry: a published image whose raw image type
`"ZoomerFront"` differs from its bucket category `"Zoomer"`, carrying 10
actions. -/
def entryC6 : RawImageEntry :=
  { RawImageEntry.default with
    imageType := some "ZoomerFront", pov := some povFL,
    activeImage := some "u", isActive := true,
    actionsCounterMap := some [("a", some 10)] }

/-- C6 counterexample inspection. -/
def inspC6 : Inspection := ⟨"C6", some ⟨[entryC6], []⟩⟩

/-- C6 counterexample processed inspection. -/
def procC6 : ProcessedInspection := ⟨"C6", some inspC6, processInspectionData inspC6⟩

/-- A front/left POV with serial number 1. -/
def povFLserial : POV := ⟨some "Front", some "Left", some 1, none⟩

/-- C7 witness entry: a published front/left SlimOverview image at
rendition 3 with serial number 1. -/
def entryW7 : RawImageEntry :=
  { RawImageEntry.default with
    imageType := some "SlimOverview", pov := some povFLserial,
    rendition := some (some 3), activeImage := some "u", isActive := true }

/-- C10 witness candidate. -/
def candW10 : Candidate :=
  ⟨"SlimOverview", "SlimOverview", "N/A", some "u", none, some "u",
   "images", 0, true, povFL⟩

/-- C10 witness row: a single rendition bucket. -/
def rowW10 : Row := ⟨"SlimOverview", povFL, [(3, [candW10])], ["images"]⟩

/-- C4 witness: a Zoomer entry at front/left with no original image. -/
def entryC4zoom : RawImageEntry :=
  { RawImageEntry.default with
    imageType := some "ZoomerFront", pov := some povFL,
    rendition := some (some 2), activeImage := some "z" }

/-- C4 witness: a SlimOverview entry at front/left carrying the
original capture URL. -/
def entryC4slim : RawImageEntry :=
  { RawImageEntry.default with
    imageType := some "SlimOverview", pov := some povFL,
    rendition := some (some 3), activeImage := some "s",
    originalImage := some "orig-url" }

/-- C4 witness data: both entries in the current-pipeline collection. -/
def dC4 : UvpaintData := ⟨[entryC4zoom, entryC4slim], []⟩

/-- C4 witness inspection. -/
def inspC4 : Inspection := ⟨"C4", some dC4⟩

/-- The provenance every original-index entry must have: a SlimOverview
raw entry of one of the two collections, keyed by its normalized camera
and side, with a resolvable original-image URL. -/
def OriginalEntryProvenance (d : UvpaintData) (k : String)
    (e : OriginalEntry) : Prop :=
  isSlimOverview e.obj.imageType = true ∧
  (e.obj ∈ d.images ∨ e.obj ∈ d.uvpaintHistoryImages) ∧
  (e.source = "images" ∨ e.source = "uvpaintHistoryImages") ∧
  e.priority = originalPriority e.source ∧
  ∃ pov cam side, e.obj.pov = some pov ∧
    normCam pov.simulatedCamera = some cam ∧
    normSide pov.simulatedCameraSide = some side ∧
    k = cam ++ "_" ++ side ∧
    (safeUrl e.obj.originalImage = some e.url ∨
      (safeUrl e.obj.originalImage = none ∧
        safeUrl (pickOriginalUrl e.obj) = some e.url))

/-- A placeholder group (used only as a `getD` fallback in witnesses). -/
def fallbackGroup : Group :=
  ⟨"", "", ⟨0, "", ""⟩, [],
   ⟨"", povFL, "", none, none, none, [], [], none, none, 0, [], none,
    none, none, none, none, false, "", ""⟩⟩

/-- The Zoomer-category group produced for `inspC4` (second in the final
order, after the SlimOverview group). -/
def gC4zoom : Group := (processInspectionData inspC4).getD 1 fallbackGroup

/-- The original-index entry `dC4` produces at `front_left`. -/
def eC4 : OriginalEntry := ⟨"orig-url", "images", 30, entryC4slim⟩

/-- A historical-priority index entry used to exercise the replacement
rule. -/
def eC4hist : OriginalEntry :=
  ⟨"old-url", "uvpaintHistoryImages", 10, RawImageEntry.default⟩

/-- A processed inspection whose metrics side counts one published
image while its comparison list is empty — the validator must flag it. -/
def inspC5b : Inspection := ⟨"C5b", some ⟨[entryW2 3], []⟩⟩

/-- The processed form of `inspC5b` with no comparison groups. -/
def procC5b : ProcessedInspection := ⟨"C5b", some inspC5b, []⟩

/-- The mismatch entry the validator records for `procC5b`. -/
def mC5b : MismatchEntry := ⟨"C5b", 1, 1, 0, 0, 1⟩

/-! ## Generic facts about the stable sort and the collision pick -/

theorem jsSort_nil (le : α → α → Bool) : jsSort le [] = [] := rfl

theorem jsSort_cons (le : α → α → Bool) (a : α) (t : List α) :
    jsSort le (a :: t) =
      List.orderedInsert (fun x y => le x y = true) a (jsSort le t) := rfl

theorem mem_jsSort (le : α → α → Bool) (l : List α) (x : α) :
    x ∈ jsSort le l ↔ x ∈ l :=
  (List.perm_insertionSort _ l).mem_iff

theorem jsSort_perm (le : α → α → Bool) (l : List α) :
    (jsSort le l).Perm l :=
  List.perm_insertionSort _ l

theorem jsSort_pairwise (le : α → α → Bool)
    (htrans : ∀ a b c, le a b = true → le b c = true → le a c = true)
    (htot : ∀ a b, le a b = true ∨ le b a = true) (l : List α) :
    (jsSort le l).Pairwise (fun a b => le a b = true) := by
  have : IsTotal α (fun a b => le a b = true) := ⟨htot⟩
  have : IsTrans α (fun a b => le a b = true) := ⟨htrans⟩
  exact List.sorted_insertionSort _ l

theorem pickBest_nil : pickBest [] = none := rfl

theorem pickBest_cons_none (a : Candidate) (t : List Candidate)
    (h : pickBest t = none) : pickBest (a :: t) = some a := by
  unfold pickBest at *
  rw [jsSort_cons]
  cases h' : jsSort scoreDescLE t with
  | nil => simp [List.orderedInsert]
  | cons b s => rw [h'] at h; simp at h

theorem pickBest_cons_some (a b : Candidate) (t : List Candidate)
    (h : pickBest t = some b) :
    pickBest (a :: t) = some (if scoreDescLE a b then a else b) := by
  unfold pickBest at *
  rw [jsSort_cons]
  cases h' : jsSort scoreDescLE t with
  | nil => rw [h'] at h; simp at h
  | cons c s =>
    rw [h'] at h
    simp only [List.head?_cons, Option.some.injEq] at h
    subst h
    by_cases hab : scoreDescLE a c
    · simp [List.orderedInsert, hab]
    · simp [List.orderedInsert, hab]

theorem pickBest_first_max (l : List Candidate) (hne : l ≠ []) :
    ∃ c l₁ l₂, pickBest l = some c ∧ l = l₁ ++ c :: l₂ ∧
      (∀ d ∈ l, scoreCandidate d ≤ scoreCandidate c) ∧
      (∀ d ∈ l₁, scoreCandidate d < scoreCandidate c) := by
  induction l with
  | nil => exact absurd rfl hne
  | cons a t ih =>
    by_cases ht : t = []
    · subst ht
      exact ⟨a, [], [], pickBest_cons_none a [] rfl, rfl, by simp, by simp⟩
    · obtain ⟨c, m₁, m₂, hc, hdec, hmax, hstrict⟩ := ih ht
      by_cases hac : scoreDescLE a c
      · have hle : scoreCandidate c ≤ scoreCandidate a := by
          simpa [scoreDescLE] using hac
        refine ⟨a, [], t, ?_, rfl, ?_, by simp⟩
        · rw [pickBest_cons_some a c t hc, if_pos hac]
        · intro d hd
          rcases List.mem_cons.mp hd with rfl | hd₂
          · exact le_refl _
          · exact le_trans (hmax d hd₂) hle
      · have hlt : scoreCandidate a < scoreCandidate c := by
          simp only [scoreDescLE, decide_eq_true_eq] at hac
          exact lt_of_not_le hac
        refine ⟨c, a :: m₁, m₂, ?_, by simp [hdec], ?_, ?_⟩
        · rw [pickBest_cons_some a c t hc, if_neg hac]
        · intro d hd
          rcases List.mem_cons.mp hd with rfl | hd₂
          · exact le_of_lt hlt
          · exact hmax d hd₂
        · intro d hd
          rcases List.mem_cons.mp hd with rfl | hd₂
          · exact hlt
          · exact hstrict d hd₂

/-- C9 (amended): the normalization helpers are total — `normCam` and
`normSide` return `null` on empty input, a canonical value on a prefix
match, and otherwise pass the lower-cased trimmed input through;
`bucketTypeOf` always returns `SlimOverview`, `Zoomer` or `null`;
`sumActionMap` is `0` on an absent map and non-numeric values
contribute `0`. -/
theorem normalization_totality :
    (∀ s : Option String,
        (normCam s = none ∧ norm s = "") ∨
        normCam s = some "front" ∨ normCam s = some "rear" ∨
        normCam s = some "center" ∨
        (normCam s = some (norm s) ∧ norm s ≠ "")) ∧
    (∀ s : Option String,
        (normSide s = none ∧ norm s = "") ∨
        normSide s = some "left" ∨ normSide s = some "right" ∨
        normSide s = some "center" ∨
        (normSide s = some (norm s) ∧ norm s ≠ "")) ∧
    (∀ it : Option String,
        bucketTypeOf it = none ∨ bucketTypeOf it = some "SlimOverview" ∨
        bucketTypeOf it = some "Zoomer") ∧
    sumActionMap none = 0 ∧
    (∀ (pre post : List (String × JSNum)) (k : String),
        sumActionMap (some (pre ++ (k, (none : JSNum)) :: post)) =
          sumActionMap (some (pre ++ post))) := by
  refine ⟨?_, ?_, ?_, rfl, ?_⟩
  · intro s
    unfold normCam
    dsimp only
    split_ifs with h1 h2 h3 h4
    · exact Or.inr (Or.inl rfl)
    · exact Or.inr (Or.inr (Or.inl rfl))
    · exact Or.inr (Or.inr (Or.inr (Or.inl rfl)))
    · exact Or.inl ⟨rfl, h4⟩
    · exact Or.inr (Or.inr (Or.inr (Or.inr ⟨rfl, h4⟩)))
  · intro s
    unfold normSide
    dsimp only
    split_ifs with h1 h2 h3 h4
    · exact Or.inr (Or.inl rfl)
    · exact Or.inr (Or.inr (Or.inl rfl))
    · exact Or.inr (Or.inr (Or.inr (Or.inl rfl)))
    · exact Or.inl ⟨rfl, h4⟩
    · exact Or.inr (Or.inr (Or.inr (Or.inr ⟨rfl, h4⟩)))
  · intro it
    unfold bucketTypeOf
    split_ifs
    · exact Or.inr (Or.inl rfl)
    · exact Or.inr (Or.inr rfl)
    · exact Or.inl rfl
  · intro pre post k
    simp [sumActionMap, List.foldl_append, numOr0]

/-- C10: a POV group whose candidates carry exactly one distinct
rendition number is still emitted, with the Latest slot filled from
that rendition and the Previous slot as the `null`/`"Empty"`
placeholder. -/
theorem single_rendition_group (inspId : String)
    (orig : List (String × OriginalEntry)) (key : String) (row : Row)
    (r : ℚ) (cands : List Candidate)
    (hrend : row.renditions = [(r, cands)]) (hne : cands ≠ []) :
    SingleRenditionEmission inspId orig key row r := by
  unfold SingleRenditionEmission
  have hnums : renditionNumsOf row = [r] := by
    simp [renditionNumsOf, hrend, jsSort, List.insertionSort]
  obtain ⟨c, hc⟩ : ∃ c, pickBestAt row r = some c := by
    have : (row.renditions.lookup r).getD [] = cands := by
      simp [hrend, List.lookup]
    unfold pickBestAt
    rw [this]
    cases hm : jsSort scoreDescLE cands with
    | nil =>
        have := jsSort_perm scoreDescLE cands
        rw [hm] at this
        exact absurd (this.symm.eq_nil) hne
    | cons x xs => exact ⟨x, by simp [pickBest, hm]⟩
  refine ⟨c, buildGroupCore inspId orig key row r [], hc, ?_, ?_⟩
  · unfold buildGroup
    rw [hnums]
  · simp [buildGroupCore, hc, safeUrl]

/-- C8: both Table A and Table D compute the Previous-vs-Latest percent
change with `actionsPercentChange`, which is `0` when both means are
zero, `100` when only the previous mean is zero, and the ordinary
relative change when the previous mean is positive. -/
theorem percent_change_edge_cases :
    (∀ (l : List ProcessedInspection) (row : TableARow),
        row ∈ (computeAggregatedMetrics l).1 →
        row.actionsPercentChange =
          actionsPercentChange row.avgPreviousActions row.avgLatestActions) ∧
    (∀ (l : List ProcessedInspection) (row : TableDRow),
        row ∈ (computeAggregatedMetrics l).2 →
        row.actionsPercentChange =
          actionsPercentChange row.avgPreviousActions row.avgLatestActions) ∧
    actionsPercentChange 0 0 = 0 ∧
    (∀ q : ℚ, 0 ≤ q → q ≠ 0 → actionsPercentChange 0 q = 100) ∧
    (∀ p q : ℚ, 0 < p → actionsPercentChange p q = (q - p) / p * 100) := by
  refine ⟨?_, ?_, ?_, ?_, ?_⟩
  · intro l row hrow
    simp only [computeAggregatedMetrics, List.mem_map] at hrow
    obtain ⟨ia, _, rfl⟩ := hrow
    rfl
  · intro l row hrow
    simp only [computeAggregatedMetrics] at hrow
    rw [mem_jsSort] at hrow
    simp only [List.mem_map] at hrow
    obtain ⟨kv, _, rfl⟩ := hrow
    rfl
  · simp [actionsPercentChange]
  · intro q h0 hne
    have hq : 0 < q := lt_of_le_of_ne h0 (Ne.symm hne)
    simp [actionsPercentChange, hq, lt_irrefl]
  · intro p q hp
    simp [actionsPercentChange, hp]

/-- Witness for C8 at the spec's example means. -/
theorem percent_change_edge_cases_witness :
    actionsPercentChange 0 5 = 100 ∧ actionsPercentChange 10 5 = -50 := by
  constructor
  · exact percent_change_edge_cases.2.2.2.1 5 (by decide) (by decide)
  · rw [percent_change_edge_cases.2.2.2.2 10 5 (by decide)]
    norm_num

-- C9 counterexample trial: decide on strings
/-- C9 counterexample: `normCam "banana"` passes through as
`"banana"`, which is neither the null sentinel nor a member of the
claimed closed output set. -/
theorem normalization_closed_set_counterexample :
    normCam (some "banana") = some "banana" ∧
    ¬(normCam (some "banana") = none ∨ normCam (some "banana") = some "front" ∨
      normCam (some "banana") = some "rear" ∨
      normCam (some "banana") = some "center") := by decide

/-- C1 (amended): at every rendition bucket with candidates, the
assembly picks exactly one — a bucket member of maximal
`scoreCandidate` value, with score ties resolved to the candidate
earliest in input order. -/
theorem collision_selection (row : Row) (r : ℚ)
    (hne : (row.renditions.lookup r).getD [] ≠ []) :
    FirstMaxSelection row r := by
  obtain ⟨c, l₁, l₂, hc, hdec, hmax, hstrict⟩ :=
    pickBest_first_max ((row.renditions.lookup r).getD []) hne
  exact ⟨c, l₁, l₂, hc, hdec, hmax, hstrict⟩

/-- Witness for C1 on a two-candidate bucket. -/
theorem collision_selection_witness :
    ((rowW1.renditions.lookup 3).getD [] ≠ []) ∧ FirstMaxSelection rowW1 3 :=
  ⟨by decide, collision_selection rowW1 3 (by decide)⟩

/-- C1 counterexample: two candidates collide at rendition 3; the
claimed score (which gives the +40 bonus only to fully publish-flagged
candidates) is maximal for the current-pipeline candidate (30 vs 10),
yet the pipeline surfaces the historical candidate, because the code's
`scoreCandidate` grants +40 for `isActive` alone (50 vs 30). -/
theorem collision_score_counterexample :
    (extractRows ⟨[entryC1cur], [entryC1hist]⟩).map (fun kv =>
      kv.2.renditions.map (fun rb =>
        rb.2.map (fun c => (c.source, specScoreCandidate c, scoreCandidate c)))) =
      [[[("images", 30, 30), ("uvpaintHistoryImages", 10, 50)]]] ∧
    (processInspectionData inspC1).map
        (fun g => g.metadata.sources.getD 1 "") = ["uvpaintHistoryImages"] := by
  decide

/-- Witness for C10 on a concrete single-rendition row. -/
theorem single_rendition_group_witness :
    rowW10.renditions = [(3, [candW10])] ∧ ([candW10] : List Candidate) ≠ [] ∧
    SingleRenditionEmission "W10" [] "SlimOverview_front_left" rowW10 3 :=
  ⟨rfl, by decide,
   single_rendition_group "W10" [] "SlimOverview_front_left" rowW10 3 [candW10]
     rfl (by decide)⟩

/-- C5 counterexample: a publish-flagged candidate with no POV is
excluded from every comparison group, yet the validator reports no
mismatch, because its metrics-side filter `isPublishedUvpaint` also
requires a POV. -/
theorem validator_missing_pov_counterexample :
    publishFlagged entryC5 = true ∧
    processInspectionData inspC5 = [] ∧
    (validateMetricsAlignment [procC5]).mismatches = [] := by decide

/-- C5 (amended): every recorded mismatch has a positive difference,
and for a single inspection a mismatch is recorded exactly when the
metrics-side publish count differs from the card-side publish count. -/
theorem validator_mismatch_iff :
    (∀ (l : List ProcessedInspection) (m : MismatchEntry),
        m ∈ (validateMetricsAlignment l).mismatches → 0 < m.difference) ∧
    (∀ p : ProcessedInspection,
        ((validateMetricsAlignment [p]).mismatches ≠ [] ↔
          metricsCountOf p ≠ (cardCountsOf p.comparisons).1)) := by
  constructor
  · intro l m hm
    suffices h : ∀ (li : List (ℕ × ProcessedInspection)) (acc : Validation),
        (∀ m' ∈ acc.mismatches, 0 < m'.difference) →
        ∀ m' ∈ (li.foldl validateStep acc).mismatches, 0 < m'.difference by
      exact h l.enum ⟨0, 0, 0, [], []⟩ (by simp) m hm
    intro li
    induction li with
    | nil => intro acc hacc m' hm'; exact hacc m' hm'
    | cons ia t ih =>
      intro acc hacc m' hm'
      refine ih _ ?_ m' hm'
      intro m'' hm''
      unfold validateStep at hm''
      dsimp only at hm''
      split at hm''
      · rcases List.mem_append.mp hm'' with h | h
        · exact hacc m'' h
        · rename_i hd
          simp only [List.mem_singleton] at h
          subst h
          exact hd
      · exact hacc m'' hm''
  · intro p
    unfold validateMetricsAlignment
    simp only [List.enum]
    show (validateStep ⟨0, 0, 0, [], []⟩ (0, p)).mismatches ≠ [] ↔ _
    unfold validateStep
    dsimp only
    by_cases h : 0 < ((metricsCountOf p : ℤ) - (cardCountsOf p.comparisons).1).natAbs
    · simp only [h, if_pos]
      constructor
      · intro _
        omega
      · intro _
        simp
    · simp only [h, if_neg]
      simp only [not_lt, Nat.le_zero] at h
      constructor
      · intro hc
        exact absurd rfl hc
      · intro hne
        exact absurd (by omega) hne

theorem mem_pushRendition_keys (rs : List (ℚ × List Candidate)) (r : ℚ)
    (c : Candidate) (x : ℚ) :
    x ∈ (pushRendition rs r c).map Prod.fst ↔
      x ∈ rs.map Prod.fst ∨ x = r := by
  induction rs with
  | nil => simp [pushRendition]
  | cons kv t ih =>
    obtain ⟨k, lst⟩ := kv
    by_cases hkr : k = r
    · subst hkr
      simp [pushRendition]
      tauto
    · simp [pushRendition, hkr, ih]
      tauto

theorem pushRendition_keys_nodup (rs : List (ℚ × List Candidate)) (r : ℚ)
    (c : Candidate) (h : (rs.map Prod.fst).Nodup) :
    ((pushRendition rs r c).map Prod.fst).Nodup := by
  induction rs with
  | nil => simp [pushRendition]
  | cons kv t ih =>
    obtain ⟨k, lst⟩ := kv
    simp only [List.map_cons, List.nodup_cons] at h
    obtain ⟨hk, ht⟩ := h
    by_cases hkr : k = r
    · subst hkr
      have hpr : pushRendition ((k, lst) :: t) k c = (k, lst ++ [c]) :: t := by
        simp [pushRendition]
      rw [hpr]
      simp only [List.map_cons, List.nodup_cons]
      exact ⟨hk, ht⟩
    · simp only [pushRendition, if_neg hkr, List.map_cons, List.nodup_cons]
      refine ⟨?_, ih ht⟩
      rw [mem_pushRendition_keys]
      rintro (h | h)
      · exact hk h
      · exact hkr h

theorem ensureRow_inv (P : Row → Prop) (rows : List (String × Row))
    (key : String) (bucketType : String) (pov : POV)
    (h : ∀ kv ∈ rows, P kv.2) (h0 : P ⟨bucketType, pov, [], []⟩) :
    ∀ kv ∈ ensureRow rows key bucketType pov, P kv.2 := by
  intro kv hkv
  unfold ensureRow at hkv
  cases hl : rows.lookup key with
  | some _ =>
    rw [hl] at hkv
    exact h kv hkv
  | none =>
    rw [hl] at hkv
    rcases List.mem_append.mp hkv with hm | hm
    · exact h kv hm
    · simp only [List.mem_singleton] at hm
      subst hm
      exact h0

theorem updateRow_inv (P : Row → Prop) (rows : List (String × Row))
    (key : String) (f : Row → Row)
    (h : ∀ kv ∈ rows, P kv.2) (hf : ∀ row, P row → P (f row)) :
    ∀ kv ∈ updateRow rows key f, P kv.2 := by
  intro kv hkv
  unfold updateRow at hkv
  obtain ⟨kw, hkw, heq⟩ := List.mem_map.mp hkv
  by_cases hk : kw.1 = key
  · rw [if_pos hk] at heq
    subst heq
    exact hf _ (h kw hkw)
  · rw [if_neg hk] at heq
    subst heq
    exact h kw hkw

theorem putCandidate_keys_nodup (rows : List (String × Row)) (p : PutArgs)
    (h : ∀ kv ∈ rows, ((kv : String × Row).2.renditions.map Prod.fst).Nodup) :
    ∀ kv ∈ putCandidate rows p, (kv.2.renditions.map Prod.fst).Nodup := by
  intro kv hkv
  unfold putCandidate at hkv
  split at hkv
  · exact h kv hkv
  · rename_i pov _
    split at hkv
    · exact h kv hkv
    · split at hkv
      · exact h kv hkv
      · rename_i bucketType _
        split at hkv
        · exact ensureRow_inv
            (fun row => (row.renditions.map Prod.fst).Nodup) rows _
            bucketType pov h List.nodup_nil kv hkv
        · exact updateRow_inv
            (fun row => (row.renditions.map Prod.fst).Nodup) _ _ _
            (ensureRow_inv (fun row => (row.renditions.map Prod.fst).Nodup)
              rows _ bucketType pov h List.nodup_nil)
            (fun row hrow => pushRendition_keys_nodup _ _ _ hrow) kv hkv

theorem foldl_preserve {β γ : Type _} (P : β → Prop) (f : β → γ → β)
    (hf : ∀ b x, P b → P (f b x)) :
    ∀ (l : List γ) (b : β), P b → P (l.foldl f b) := by
  intro l
  induction l with
  | nil => intro b hb; exact hb
  | cons x t ih =>
    intro b hb
    exact ih (f b x) (hf b x hb)

theorem extractRows_keys_nodup (d : UvpaintData) :
    ∀ kv ∈ extractRows d, ((kv : String × Row).2.renditions.map Prod.fst).Nodup := by
  have hstepI : ∀ (rows : List (String × Row)) (img : RawImageEntry),
      (∀ kv ∈ rows, (kv.2.renditions.map Prod.fst).Nodup) →
      ∀ kv ∈ putFromImages rows img, (kv.2.renditions.map Prod.fst).Nodup := by
    intro rows img hrows
    unfold putFromImages
    split_ifs with h1' h2' h3'
    · exact hrows
    · exact hrows
    · exact hrows
    · exact putCandidate_keys_nodup rows _ hrows
  have hstepH : ∀ (rows : List (String × Row)) (img : RawImageEntry),
      (∀ kv ∈ rows, (kv.2.renditions.map Prod.fst).Nodup) →
      ∀ kv ∈ putFromHistory rows img, (kv.2.renditions.map Prod.fst).Nodup := by
    intro rows img hrows
    unfold putFromHistory
    split_ifs with h1' h2' h3'
    · exact hrows
    · exact hrows
    · exact hrows
    · exact putCandidate_keys_nodup rows _ hrows
  have h1 := foldl_preserve
    (fun rows : List (String × Row) =>
      ∀ kv ∈ rows, (kv.2.renditions.map Prod.fst).Nodup)
    putFromImages hstepI d.images [] (by simp)
  exact foldl_preserve
    (fun rows : List (String × Row) =>
      ∀ kv ∈ rows, (kv.2.renditions.map Prod.fst).Nodup)
    putFromHistory hstepH d.uvpaintHistoryImages _ h1

theorem qdesc_trans : ∀ (a b c : ℚ), (decide (b ≤ a)) = true →
    (decide (c ≤ b)) = true → (decide (c ≤ a)) = true := by
  intro a b c hab hbc
  simp only [decide_eq_true_eq] at *
  exact le_trans hbc hab

theorem qdesc_total : ∀ (a b : ℚ),
    (decide (b ≤ a)) = true ∨ (decide (a ≤ b)) = true := by
  intro a b
  simp only [decide_eq_true_eq]
  exact (le_total b a)

/-- C2: extracted POV rows have pairwise-distinct rendition numbers; a
row with no rendition numbers is never emitted; an emitted group puts
the highest rendition in the Latest slot and the second-highest (when
present) in the Previous slot, fills both slots from exactly those two
buckets, and surfaces no other rendition. -/
theorem rendition_slot_policy :
    (∀ (d : UvpaintData) (key : String) (row : Row),
        (key, row) ∈ extractRows d → (row.renditions.map Prod.fst).Nodup) ∧
    (∀ (inspId : String) (orig : List (String × OriginalEntry))
        (key : String) (row : Row),
        (row.renditions.map Prod.fst).Nodup →
        RenditionSlotAssignment inspId orig key row) := by
  constructor
  · intro d key row hmem
    exact extractRows_keys_nodup d (key, row) hmem
  · intro inspId orig key row hnd
    constructor
    · intro hrend
      unfold buildGroup
      have hz : renditionNumsOf row = [] := by
        simp [renditionNumsOf, hrend, jsSort, List.insertionSort]
      rw [hz]
    · intro g hg
      unfold buildGroup at hg
      have hperm : (renditionNumsOf row).Perm (row.renditions.map Prod.fst) :=
        jsSort_perm _ _
      have hsorted : (renditionNumsOf row).Pairwise
          (fun a b => (decide (b ≤ a)) = true) :=
        jsSort_pairwise _ qdesc_trans (fun a b => (qdesc_total a b).elim Or.inl Or.inr) _
      cases hs : renditionNumsOf row with
      | nil =>
        rw [hs] at hg
        exact absurd hg (by simp)
      | cons L rest =>
        rw [hs] at hg
        rw [hs] at hperm hsorted
        have hnd2 : (L :: rest).Nodup := hperm.nodup_iff.mpr hnd
        simp only [Option.some.injEq] at hg
        subst hg
        refine ⟨L, rfl, ?_, ?_, rfl, rfl, ?_⟩
        · exact hperm.subset (List.mem_cons_self L rest)
        · intro r hr
          have hr' : r ∈ L :: rest := hperm.mem_iff.mpr hr
          rcases List.mem_cons.mp hr' with rfl | hr2
          · exact le_refl r
          · have := (List.pairwise_cons.mp hsorted).1 r hr2
            simpa using this
        · cases rest with
          | nil =>
            left
            refine ⟨rfl, ?_, rfl, rfl⟩
            have : (row.renditions.map Prod.fst).Perm [L] := hperm.symm
            exact List.perm_singleton.mp this
          | cons P rest2 =>
            right
            refine ⟨P, rfl, ?_, ?_, ?_, rfl, rfl⟩
            · exact hperm.subset (by simp)
            · have hle : P ≤ L := by
                have := (List.pairwise_cons.mp hsorted).1 P (by simp)
                simpa using this
              have hne : P ≠ L := by
                intro h
                subst h
                simp at hnd2
              exact lt_of_le_of_ne hle hne
            · intro r hr hrL
              have hr' : r ∈ L :: P :: rest2 := hperm.mem_iff.mpr hr
              rcases List.mem_cons.mp hr' with rfl | hr2
              · exact absurd rfl hrL
              · rcases List.mem_cons.mp hr2 with rfl | hr3
                · exact le_refl r
                · have hp2 := (List.pairwise_cons.mp
                    (List.pairwise_cons.mp hsorted).2).1 r hr3
                  simpa using hp2

theorem groupLE_trans : ∀ (a b c : Group),
    groupLE a b = true → groupLE b c = true → groupLE a c = true := by
  intro a b c hab hbc
  simp only [groupLE, decide_eq_true_eq] at *
  exact le_trans hab hbc

theorem groupLE_total : ∀ (a b : Group),
    groupLE a b = true ∨ groupLE b a = true := by
  intro a b
  simp only [groupLE, decide_eq_true_eq]
  exact le_total _ _

theorem groupLE_iff (a b : Group) : groupLE a b = true ↔
    ((if a.metadata.published then (0:ℕ) else 1) <
        (if b.metadata.published then 0 else 1) ∨
      ((if a.metadata.published then (0:ℕ) else 1) =
          (if b.metadata.published then 0 else 1) ∧
        (a.sortKey.typeOrder < b.sortKey.typeOrder ∨
          (a.sortKey.typeOrder = b.sortKey.typeOrder ∧
            (a.sortKey.cam < b.sortKey.cam ∨
              (a.sortKey.cam = b.sortKey.cam ∧
                a.sortKey.side ≤ b.sortKey.side)))))) := by
  unfold groupLE sortTuple
  simp only [decide_eq_true_eq, Prod.Lex.le_iff]

theorem slotPublished_iff (d : Option RendData) :
    slotPublished d = true ↔
      ∃ dd, d = some dd ∧ dd.isActive = true ∧
        ∃ u, dd.activeImage = some u ∧ u ≠ "" := by
  cases d with
  | none => simp [slotPublished]
  | some dd =>
    cases hai : dd.activeImage with
    | none => simp [slotPublished, truthyStr, hai]
    | some u =>
      simp [slotPublished, truthyStr, hai]

theorem isRowPublished_iff (rd0 rd1 : Option RendData) :
    isRowPublished rd0 rd1 = true ↔
      ((∃ dd, rd0 = some dd ∧ dd.isActive = true ∧
          ∃ u, dd.activeImage = some u ∧ u ≠ "") ∨
       (∃ dd, rd1 = some dd ∧ dd.isActive = true ∧
          ∃ u, dd.activeImage = some u ∧ u ≠ "")) := by
  simp [isRowPublished, Bool.or_eq_true, slotPublished_iff]

/-- C3: every emitted group's `published` flag is true iff its Previous
or Latest slot records an `isActive` candidate with a non-empty active
image, and the final list is ordered published-first, then by bucket
rank (`SlimOverview` 0 before `Zoomer` 1), then camera, then side,
ascending. -/
theorem published_flag_and_final_ordering (insp : Inspection) :
    ((processInspectionData insp).Pairwise (fun a b =>
      ((if a.metadata.published then (0:ℕ) else 1) <
          (if b.metadata.published then 0 else 1)) ∨
      ((if a.metadata.published then (0:ℕ) else 1) =
          (if b.metadata.published then 0 else 1) ∧
        (a.sortKey.typeOrder < b.sortKey.typeOrder ∨
          (a.sortKey.typeOrder = b.sortKey.typeOrder ∧
            (a.sortKey.cam < b.sortKey.cam ∨
              (a.sortKey.cam = b.sortKey.cam ∧
                a.sortKey.side ≤ b.sortKey.side))))))) ∧
    ∀ g ∈ processInspectionData insp,
      (g.metadata.published = true ↔
        ((∃ dd, g.metadata.renditionData0 = some dd ∧ dd.isActive = true ∧
            ∃ u, dd.activeImage = some u ∧ u ≠ "") ∨
         (∃ dd, g.metadata.renditionData1 = some dd ∧ dd.isActive = true ∧
            ∃ u, dd.activeImage = some u ∧ u ≠ ""))) ∧
      g.sortKey.typeOrder = imageTypeOrder g.metadata.bucketType ∧
      g.sortKey.cam = jsToLower (jsStr (normCam g.metadata.pov.simulatedCamera)) ∧
      g.sortKey.side =
        jsToLower (jsStr (normSide g.metadata.pov.simulatedCameraSide)) := by
  unfold processInspectionData
  cases hd : insp.uvpaintData with
  | none => simp
  | some d =>
    dsimp only
    constructor
    · have hp := jsSort_pairwise groupLE groupLE_trans groupLE_total
        (buildGroups insp.inspectionId d)
      exact hp.imp (fun h => (groupLE_iff _ _).mp h)
    · intro g hg
      rw [mem_jsSort] at hg
      unfold buildGroups at hg
      obtain ⟨kv, hkv, hbg⟩ := List.mem_filterMap.mp hg
      unfold buildGroup at hbg
      cases hs : renditionNumsOf kv.2 with
      | nil => rw [hs] at hbg; simp at hbg
      | cons L rest =>
        rw [hs] at hbg
        simp only [Option.some.injEq] at hbg
        subst hbg
        exact ⟨isRowPublished_iff _ _, rfl, rfl, rfl⟩

/-- Witness for C2 on a group with renditions 1, 3 and 5: Latest = 5,
Previous = 3, rendition 1 in no slot. -/
theorem rendition_slot_policy_witness :
    ("SlimOverview_front_left", rowW2) ∈ extractRows dW2 ∧
    (rowW2.renditions.map Prod.fst).Nodup ∧
    RenditionSlotAssignment "W2" [] "SlimOverview_front_left" rowW2 ∧
    (processInspectionData ⟨"W2", some dW2⟩).map
      (fun g => (g.metadata.renditions0, g.metadata.renditions1)) =
      [(some 3, some 5)] :=
  ⟨by decide,
   rendition_slot_policy.1 dW2 "SlimOverview_front_left" rowW2 (by decide),
   rendition_slot_policy.2 "W2" [] "SlimOverview_front_left" rowW2 (by decide),
   by decide⟩

/-- C6 (amended): Table D rows are sorted descending by
`avgActionsPerImage` (mean total actions per published image), and the
aggregation maps are keyed by the raw `imageType` of the published
image resp. the comparison's bucket type, joined with the POV
fields. -/
theorem tableD_key_and_sort :
    (∀ l : List ProcessedInspection,
        ((computeAggregatedMetrics l).2).Pairwise
          (fun a b => b.avgActionsPerImage ≤ a.avgActionsPerImage)) ∧
    (∀ (agg : List (String × DAgg)) (img : RawImageEntry),
        (addToTableD agg img).map Prod.fst = agg.map Prod.fst ∨
        (addToTableD agg img).map Prod.fst = agg.map Prod.fst ++
          [tableDKey img.imageType (img.pov.bind fun p => p.simulatedCamera)
            (img.pov.bind fun p => p.simulatedCameraSide)
            (strOr (img.pov.bind fun p => p.originalCameraId) "N/A")]) ∧
    (∀ (agg : List (String × CAgg)) (comp : Group),
        (addComparison agg comp).map Prod.fst = agg.map Prod.fst ∨
        (addComparison agg comp).map Prod.fst = agg.map Prod.fst ++
          [tableDKey (some comp.metadata.bucketType)
            comp.metadata.pov.simulatedCamera
            comp.metadata.pov.simulatedCameraSide
            (strOr comp.metadata.pov.originalCameraId "N/A")]) := by
  refine ⟨?_, ?_, ?_⟩
  · intro l
    have hp := jsSort_pairwise tableDLE ?_ ?_
      ((l.foldl (fun agg insp =>
          (publishedUvpaintOf insp).foldl addToTableD agg) [] |>
        (l.foldl (fun agg insp =>
          insp.comparisons.foldl addComparison agg) []).foldl
          mergeComparison).map (fun kv => finalizeDRow kv.2))
    · exact hp.imp (fun h => by simpa [tableDLE] using h)
    · intro a b c hab hbc
      simp only [tableDLE, decide_eq_true_eq] at *
      exact le_trans hbc hab
    · intro a b
      simp only [tableDLE, decide_eq_true_eq]
      exact (le_total _ _).symm.imp id id
  · intro agg img
    unfold addToTableD
    dsimp only
    cases hl : agg.lookup (tableDKey img.imageType
        (img.pov.bind fun p => p.simulatedCamera)
        (img.pov.bind fun p => p.simulatedCameraSide)
        (strOr (img.pov.bind fun p => p.originalCameraId) "N/A")) with
    | some row =>
      left
      dsimp only
      rw [List.map_map]
      refine List.map_congr_left ?_
      intro kv _
      by_cases hk : kv.1 = tableDKey img.imageType
          (img.pov.bind fun p => p.simulatedCamera)
          (img.pov.bind fun p => p.simulatedCameraSide)
          (strOr (img.pov.bind fun p => p.originalCameraId) "N/A")
      · simp [hk]
      · simp [hk]
    | none =>
      right
      dsimp only
      rw [List.map_append, List.map_append, List.map_map, List.map_map]
      have h1 : (agg.map (Prod.fst ∘ fun kv =>
          if kv.1 = tableDKey img.imageType
              (img.pov.bind fun p => p.simulatedCamera)
              (img.pov.bind fun p => p.simulatedCameraSide)
              (strOr (img.pov.bind fun p => p.originalCameraId) "N/A")
          then (kv.1, { kv.2 with
              images := kv.2.images + 1
              totalActions := kv.2.totalActions +
                numOr0 (some (rawActions img)) })
          else kv)) = agg.map Prod.fst := by
        refine List.map_congr_left ?_
        intro kv _
        by_cases hk : kv.1 = tableDKey img.imageType
            (img.pov.bind fun p => p.simulatedCamera)
            (img.pov.bind fun p => p.simulatedCameraSide)
            (strOr (img.pov.bind fun p => p.originalCameraId) "N/A")
        · simp [hk]
        · simp [hk]
      simp only [h1]
      simp
  · intro agg comp
    unfold addComparison
    dsimp only
    cases hl : agg.lookup (tableDKey (some comp.metadata.bucketType)
        comp.metadata.pov.simulatedCamera
        comp.metadata.pov.simulatedCameraSide
        (strOr comp.metadata.pov.originalCameraId "N/A")) with
    | some row =>
      left
      dsimp only
      rw [List.map_map]
      refine List.map_congr_left ?_
      intro kv _
      by_cases hk : kv.1 = tableDKey (some comp.metadata.bucketType)
          comp.metadata.pov.simulatedCamera
          comp.metadata.pov.simulatedCameraSide
          (strOr comp.metadata.pov.originalCameraId "N/A")
      · simp [hk]
      · simp [hk]
    | none =>
      right
      dsimp only
      rw [List.map_append, List.map_append, List.map_map, List.map_map]
      have h1 : (agg.map (Prod.fst ∘ fun kv =>
          if kv.1 = tableDKey (some comp.metadata.bucketType)
              comp.metadata.pov.simulatedCamera
              comp.metadata.pov.simulatedCameraSide
              (strOr comp.metadata.pov.originalCameraId "N/A")
          then (kv.1,
            let r := kv.2
            let r :=
              match comp.metadata.actions0 with
              | some q =>
                  { r with previousTotalActions := r.previousTotalActions +
                      numOr0 (some q), previousCount := r.previousCount + 1 }
              | none => r
            match comp.metadata.actions1 with
            | some q =>
                { r with latestTotalActions := r.latestTotalActions +
                    numOr0 (some q), latestCount := r.latestCount + 1 }
            | none => r)
          else kv)) = agg.map Prod.fst := by
        refine List.map_congr_left ?_
        intro kv _
        by_cases hk : kv.1 = tableDKey (some comp.metadata.bucketType)
            comp.metadata.pov.simulatedCamera
            comp.metadata.pov.simulatedCameraSide
            (strOr comp.metadata.pov.originalCameraId "N/A")
        · simp [hk]
        · simp [hk]
      simp only [h1]
      simp

theorem lookup_append_left {α : Type _} (idx l : List (String × α))
    (k : String) (e : α) (h : idx.lookup k = some e) :
    (idx ++ l).lookup k = some e := by
  induction idx with
  | nil => simp [List.lookup] at h
  | cons kv t ih =>
    simp only [List.cons_append, List.lookup] at h ⊢
    cases hbe : (k == kv.1)
    · rw [hbe] at h
      exact ih h
    · rw [hbe] at h
      exact h

theorem lookup_updateOriginal_self (idx : List (String × OriginalEntry))
    (key : String) (e0 e' : OriginalEntry) (h : idx.lookup key = some e0) :
    (updateOriginal idx key e').lookup key = some e' := by
  induction idx with
  | nil => simp [List.lookup] at h
  | cons kv t ih =>
    simp only [updateOriginal, List.map_cons] at *
    by_cases hk : kv.1 = key
    · rw [if_pos hk]
      simp only [List.lookup]
      have hbe : (key == kv.1) = true := beq_iff_eq.mpr hk.symm
      rw [hbe]
    · rw [if_neg hk]
      simp only [List.lookup] at h ⊢
      have hbe : (key == kv.1) = false :=
        beq_eq_false_iff_ne.mpr (fun hh => hk hh.symm)
      rw [hbe] at h ⊢
      exact ih h

theorem lookup_updateOriginal_ne (idx : List (String × OriginalEntry))
    (key k : String) (e' : OriginalEntry) (h : k ≠ key) :
    (updateOriginal idx key e').lookup k = idx.lookup k := by
  induction idx with
  | nil => rfl
  | cons kv t ih =>
    simp only [updateOriginal, List.map_cons] at *
    by_cases hk : kv.1 = key
    · rw [if_pos hk]
      simp only [List.lookup]
      have hbe : (k == kv.1) = false := beq_eq_false_iff_ne.mpr (by rw [hk]; exact h)
      rw [hbe]
      exact ih
    · rw [if_neg hk]
      simp only [List.lookup]
      cases hbe : (k == kv.1)
      · exact ih
      · rfl

theorem foldl_preserve_mem {β γ : Type _} (P : β → Prop) (f : β → γ → β) :
    ∀ (l : List γ) (b : β), (∀ b' x, x ∈ l → P b' → P (f b' x)) → P b →
      P (l.foldl f b) := by
  intro l
  induction l with
  | nil => intro b _ hb; exact hb
  | cons x t ih =>
    intro b hf hb
    exact ih (f b x) (fun b' y hy hb' => hf b' y (List.mem_cons_of_mem x hy) hb')
      (hf b x (List.mem_cons_self x t) hb)

theorem considerOriginal_mem (idx : List (String × OriginalEntry))
    (img : RawImageEntry) (srcName : String) (k : String) (e : OriginalEntry)
    (h : (k, e) ∈ considerOriginal idx img srcName) :
    (k, e) ∈ idx ∨
      (isSlimOverview img.imageType = true ∧ e.obj = img ∧
        e.source = srcName ∧ e.priority = originalPriority srcName ∧
        ∃ pov cam side, img.pov = some pov ∧
          normCam pov.simulatedCamera = some cam ∧
          normSide pov.simulatedCameraSide = some side ∧
          k = cam ++ "_" ++ side ∧
          (safeUrl img.originalImage = some e.url ∨
            (safeUrl img.originalImage = none ∧
              safeUrl (pickOriginalUrl img) = some e.url))) := by
  unfold considerOriginal at h
  split at h
  · exact Or.inl h
  · rename_i pov hpov
    split at h
    · exact Or.inl h
    · rename_i hslim
      split at h
      · rename_i cam side hcam hside
        dsimp only at h
        split at h
        · exact Or.inl h
        · rename_i url hurl
          split at h
          · rename_i hlook
            rcases List.mem_append.mp h with h1 | h1
            · exact Or.inl h1
            · simp only [List.mem_singleton, Prod.mk.injEq] at h1
              obtain ⟨hk, he⟩ := h1
              refine Or.inr ⟨?_, ?_, ?_, ?_, pov, cam, side, hpov, hcam, hside, hk, ?_⟩
              · simpa using hslim
              · rw [he]
              · rw [he]
              · rw [he]
              · rw [he]
                cases hso : safeUrl img.originalImage with
                | some u =>
                  rw [hso] at hurl
                  simp only [Option.some.injEq] at hurl
                  exact Or.inl (by rw [hurl])
                | none =>
                  rw [hso] at hurl
                  exact Or.inr ⟨rfl, hurl⟩
          · rename_i existing hlook
            split at h
            · obtain ⟨kv, hkv, heq⟩ := List.mem_map.mp h
              by_cases hkk : kv.1 = cam ++ "_" ++ side
              · rw [if_pos hkk] at heq
                have hk : k = kv.1 := by
                  have := congrArg Prod.fst heq.symm
                  simpa using this
                have he : e = ⟨url, srcName, originalPriority srcName, img⟩ := by
                  have := congrArg Prod.snd heq.symm
                  simpa using this
                refine Or.inr ⟨?_, ?_, ?_, ?_, pov, cam, side, hpov, hcam, hside,
                  by rw [hk, hkk], ?_⟩
                · simpa using hslim
                · rw [he]
                · rw [he]
                · rw [he]
                · rw [he]
                  cases hso : safeUrl img.originalImage with
                  | some u =>
                    rw [hso] at hurl
                    simp only [Option.some.injEq] at hurl
                    exact Or.inl (by rw [hurl])
                  | none =>
                    rw [hso] at hurl
                    exact Or.inr ⟨rfl, hurl⟩
              · rw [if_neg hkk] at heq
                subst heq
                exact Or.inl hkv
            · exact Or.inl h
      · exact Or.inl h

theorem buildOriginals_mem (d : UvpaintData) (k : String)
    (e : OriginalEntry) (h : (k, e) ∈ buildOriginals d) :
    OriginalEntryProvenance d k e := by
  have hP : ∀ ke : String × OriginalEntry, ke ∈ buildOriginals d →
      OriginalEntryProvenance d ke.1 ke.2 := by
    unfold buildOriginals
    refine foldl_preserve_mem
      (fun idx : List (String × OriginalEntry) =>
        ∀ ke ∈ idx, OriginalEntryProvenance d ke.1 ke.2)
      _ d.uvpaintHistoryImages _ ?_ ?_
    · intro idx img hmem hidx ke hke
      rcases considerOriginal_mem idx img "uvpaintHistoryImages" ke.1 ke.2
          (by simpa using hke) with h1 | h1
      · exact hidx _ h1
      · obtain ⟨hslim, hobj, hsrc, hpr, pov, cam, side, hpov, hcam, hside,
          hk, hurl⟩ := h1
        refine ⟨by rw [hobj]; exact hslim, Or.inr (by rw [hobj]; exact hmem),
          Or.inr hsrc, by rw [hsrc]; exact hpr,
          pov, cam, side, by rw [hobj]; exact hpov, hcam, hside, hk, ?_⟩
        rw [hobj]
        exact hurl
    · refine foldl_preserve_mem
        (fun idx : List (String × OriginalEntry) =>
          ∀ ke ∈ idx, OriginalEntryProvenance d ke.1 ke.2)
        _ d.images [] ?_ (by simp)
      intro idx img hmem hidx ke hke
      rcases considerOriginal_mem idx img "images" ke.1 ke.2
          (by simpa using hke) with h1 | h1
      · exact hidx _ h1
      · obtain ⟨hslim, hobj, hsrc, hpr, pov, cam, side, hpov, hcam, hside,
          hk, hurl⟩ := h1
        refine ⟨by rw [hobj]; exact hslim, Or.inl (by rw [hobj]; exact hmem),
          Or.inl hsrc, by rw [hsrc]; exact hpr,
          pov, cam, side, by rw [hobj]; exact hpov, hcam, hside, hk, ?_⟩
        rw [hobj]
        exact hurl
  exact hP (k, e) h

theorem considerOriginal_keeps (idx : List (String × OriginalEntry))
    (img : RawImageEntry) (srcName : String) (k : String) (e : OriginalEntry)
    (hl : idx.lookup k = some e)
    (hpr : originalPriority srcName ≤ e.priority) :
    (considerOriginal idx img srcName).lookup k = some e := by
  unfold considerOriginal
  split
  · exact hl
  · rename_i pov hpov
    split
    · exact hl
    · rename_i hslim
      split
      · rename_i cam side hcam hside
        dsimp only
        split
        · exact hl
        · rename_i url hurl
          split
          · rename_i hlook
            exact lookup_append_left idx _ k e hl
          · rename_i existing hlook
            split
            · rename_i hgt
              by_cases hk : k = cam ++ "_" ++ side
              · subst hk
                rw [hl] at hlook
                simp only [Option.some.injEq] at hlook
                subst hlook
                exact absurd hgt (not_lt.mpr hpr)
              · rw [lookup_updateOriginal_ne idx _ k _ hk]
                exact hl
            · exact hl
      · exact hl

theorem considerOriginal_replaces (idx : List (String × OriginalEntry))
    (img : RawImageEntry) (srcName : String) (pov : POV)
    (cam side u : String) (e : OriginalEntry)
    (hpov : img.pov = some pov)
    (hslim : isSlimOverview img.imageType = true)
    (hcam : normCam pov.simulatedCamera = some cam)
    (hside : normSide pov.simulatedCameraSide = some side)
    (hurl : (match safeUrl img.originalImage with
             | some u' => some u'
             | none => safeUrl (pickOriginalUrl img)) = some u)
    (hl : idx.lookup (cam ++ "_" ++ side) = some e)
    (hpr : e.priority < originalPriority srcName) :
    (considerOriginal idx img srcName).lookup (cam ++ "_" ++ side) =
      some ⟨u, srcName, originalPriority srcName, img⟩ := by
  unfold considerOriginal
  rw [hpov]
  simp only [hslim, Bool.not_true, Bool.false_eq_true, if_false]
  rw [hcam, hside]
  dsimp only
  rw [hurl, hl]
  dsimp only
  rw [if_pos hpr]
  exact lookup_updateOriginal_self idx _ e _ hl

theorem considerOriginal_no_url (idx : List (String × OriginalEntry))
    (img : RawImageEntry) (srcName : String)
    (h1 : safeUrl img.originalImage = none)
    (h2 : safeUrl (pickOriginalUrl img) = none) :
    considerOriginal idx img srcName = idx := by
  unfold considerOriginal
  split
  · rfl
  · split
    · rfl
    · split
      · dsimp only
        rw [h1, h2]
      · rfl

theorem groups_consult_original_index (insp : Inspection) (d : UvpaintData)
    (g : Group) (cam side : String)
    (hd : insp.uvpaintData = some d)
    (hg : g ∈ processInspectionData insp)
    (hcam : normCam g.metadata.pov.simulatedCamera = some cam)
    (hside : normSide g.metadata.pov.simulatedCameraSide = some side) :
    g.images.getD 2 none =
      safeUrl (((buildOriginals d).lookup (cam ++ "_" ++ side)).map
        (fun e => e.url)) := by
  unfold processInspectionData at hg
  rw [hd] at hg
  rw [mem_jsSort] at hg
  unfold buildGroups at hg
  obtain ⟨kv, hkv, hbg⟩ := List.mem_filterMap.mp hg
  unfold buildGroup at hbg
  cases hs : renditionNumsOf kv.2 with
  | nil => rw [hs] at hbg; simp at hbg
  | cons L rest =>
    rw [hs] at hbg
    simp only [Option.some.injEq] at hbg
    subst hbg
    simp only [buildGroupCore] at hcam hside ⊢
    rw [hcam, hside]
    rfl

/-- C4: the original-image index holds only SlimOverview entries with a
resolvable original URL keyed by normalized camera/side; a stored entry
with priority at least the incoming source's is kept (first-seen wins
among equals), a strictly higher-priority source (current pipeline, 30)
replaces a lower one (historical, 10); entries with no resolvable URL
change nothing; and every emitted group's Original slot is the index
lookup at the group's own camera/side, independent of its bucket
category. -/
theorem original_index_policy :
    (∀ (d : UvpaintData) (k : String) (e : OriginalEntry),
        (k, e) ∈ buildOriginals d → OriginalEntryProvenance d k e) ∧
    (∀ (idx : List (String × OriginalEntry)) (img : RawImageEntry)
        (srcName k : String) (e : OriginalEntry),
        idx.lookup k = some e → originalPriority srcName ≤ e.priority →
        (considerOriginal idx img srcName).lookup k = some e) ∧
    (∀ (idx : List (String × OriginalEntry)) (img : RawImageEntry)
        (srcName : String) (pov : POV) (cam side u : String)
        (e : OriginalEntry),
        img.pov = some pov → isSlimOverview img.imageType = true →
        normCam pov.simulatedCamera = some cam →
        normSide pov.simulatedCameraSide = some side →
        (match safeUrl img.originalImage with
         | some u' => some u'
         | none => safeUrl (pickOriginalUrl img)) = some u →
        idx.lookup (cam ++ "_" ++ side) = some e →
        e.priority < originalPriority srcName →
        (considerOriginal idx img srcName).lookup (cam ++ "_" ++ side) =
          some ⟨u, srcName, originalPriority srcName, img⟩) ∧
    (∀ (idx : List (String × OriginalEntry)) (img : RawImageEntry)
        (srcName : String),
        safeUrl img.originalImage = none →
        safeUrl (pickOriginalUrl img) = none →
        considerOriginal idx img srcName = idx) ∧
    (∀ (insp : Inspection) (d : UvpaintData) (g : Group) (cam side : String),
        insp.uvpaintData = some d → g ∈ processInspectionData insp →
        normCam g.metadata.pov.simulatedCamera = some cam →
        normSide g.metadata.pov.simulatedCameraSide = some side →
        g.images.getD 2 none =
          safeUrl (((buildOriginals d).lookup (cam ++ "_" ++ side)).map
            (fun e => e.url))) :=
  ⟨buildOriginals_mem,
   considerOriginal_keeps,
   fun idx img srcName pov cam side u e h1 h2 h3 h4 h5 h6 h7 =>
     considerOriginal_replaces idx img srcName pov cam side u e h1 h2 h3 h4 h5 h6 h7,
   considerOriginal_no_url,
   fun insp d g cam side h1 h2 h3 h4 =>
     groups_consult_original_index insp d g cam side h1 h2 h3 h4⟩

/-- Witness for C4: concrete index membership, keep and replace steps,
a no-URL no-op, and a Zoomer group at front/left receiving the
SlimOverview original at front/left. -/
theorem original_index_policy_witness :
    (("front_left", eC4) ∈ buildOriginals dC4 ∧
      OriginalEntryProvenance dC4 "front_left" eC4) ∧
    (([("front_left", eC4)] : List (String × OriginalEntry)).lookup
        "front_left" = some eC4 ∧
      originalPriority "uvpaintHistoryImages" ≤ eC4.priority ∧
      (considerOriginal [("front_left", eC4)] entryC4slim
        "uvpaintHistoryImages").lookup "front_left" = some eC4) ∧
    ((considerOriginal [("front_left", eC4hist)] entryC4slim
        "images").lookup ("front" ++ "_" ++ "left") =
      some ⟨"orig-url", "images", originalPriority "images", entryC4slim⟩) ∧
    (considerOriginal [] entryC4zoom "images" = []) ∧
    (gC4zoom.metadata.bucketType = "Zoomer" ∧
      gC4zoom ∈ processInspectionData inspC4 ∧
      gC4zoom.images.getD 2 none =
        safeUrl (((buildOriginals dC4).lookup ("front" ++ "_" ++ "left")).map
          (fun e => e.url)) ∧
      gC4zoom.images.getD 2 none = some "orig-url") := by
  refine ⟨⟨by decide, ?_⟩, ⟨by decide, by decide, ?_⟩, ?_, ?_, ?_⟩
  · exact original_index_policy.1 dC4 "front_left" eC4 (by decide)
  · exact original_index_policy.2.1 [("front_left", eC4)] entryC4slim
      "uvpaintHistoryImages" "front_left" eC4 (by decide) (by decide)
  · exact original_index_policy.2.2.1 [("front_left", eC4hist)] entryC4slim
      "images" povFL "front" "left" "orig-url" eC4hist (by decide) (by decide)
      (by decide) (by decide) (by decide) (by decide) (by decide)
  · exact original_index_policy.2.2.2.1 [] entryC4zoom "images"
      (by decide) (by decide)
  · refine ⟨by decide, by decide, ?_, by decide⟩
    exact original_index_policy.2.2.2.2 inspC4 dC4 gC4zoom "front" "left"
      rfl (by decide) (by decide) (by decide)

unseal Rat.add Rat.mul Rat.inv Rat.sub in
/-- C6 counterexample: one published image of raw type `"ZoomerFront"`
yields two Table D rows — one keyed by the raw image type (not a bucket
category) and one keyed by the bucket type — and the resulting order is
descending in `avgActionsPerImage` (10 before 0) while the mean
latest-actions-per-image ascends (0 before 10), refuting both the
claimed key and the claimed sort field. -/
theorem tableD_rawtype_key_counterexample :
    ((computeAggregatedMetrics [procC6]).2).map
        (fun r => (r.imageType, r.avgActionsPerImage, r.avgLatestActions)) =
      [("ZoomerFront", 10, 0), ("Zoomer", 0, 10)] ∧
    ("ZoomerFront" ∈ (["SlimOverview", "Zoomer"] : List String)) = False := by
  constructor
  · decide
  · decide
/-- C7: two raw entries identical except for the POV serial number land
in the same POV row and the same rendition bucket; their scores are
equal, the collision pick selects the first deterministically, and the
assembled group surfaces exactly that one in its Latest slot. -/
theorem serial_number_collapse (e : RawImageEntry) (pov : POV)
    (sn2 : Option Int) (r : ℚ)
    (hpov : e.pov = some pov)
    (hart : e.imageType ≠ some "Artemis")
    (hat : isAllowedType e.imageType = true)
    (hrend : e.rendition.getD (some 3) = some r) :
    ∃ key row c1 c2,
      extractRows
          ⟨[e, { e with pov := some { pov with serialNumber := sn2 } }], []⟩ =
        [(key, row)] ∧
      row.renditions = [(r, [c1, c2])] ∧
      c2 = { c1 with pov := { pov with serialNumber := sn2 } } ∧
      scoreCandidate c1 = scoreCandidate c2 ∧
      pickBestAt row r = some c1 ∧
      (∀ (inspId : String) (orig : List (String × OriginalEntry)),
        ∃ g, buildGroup inspId orig key row = some g ∧
          g.metadata.renditionData1 = some (rendDataOfCandidate c1) ∧
          g.metadata.renditionData0 = none) := by
  obtain ⟨bt, hbt⟩ : ∃ bt, bucketTypeOf e.imageType = some bt := by
    by_cases hs : isSlimOverview e.imageType
    · exact ⟨"SlimOverview", by simp [bucketTypeOf, hs]⟩
    · have hat' : isSlimOverview e.imageType = true ∨ isZoomer e.imageType = true := by
        simpa [isAllowedType] using hat
      have hz : isZoomer e.imageType = true := by
        rcases hat' with h | h
        · exact absurd h hs
        · exact h
      exact ⟨"Zoomer", by simp [bucketTypeOf, hs, hz]⟩
  set c1 : Candidate :=
    { imageType := strOr e.imageType "N/A"
      bucketType := bt
      status := strOr e.status "N/A"
      activeImage := safeUrl e.activeImage
      originalImage := safeUrl (pickOriginalUrl e)
      image := safeUrl e.activeImage
      source := "images"
      actions := match e.actionsCounterMap with
                 | some m => sumActionMap (some m)
                 | none => 0
      isActive := e.isActive
      pov := pov } with hc1
  set c2 : Candidate := { c1 with pov := { pov with serialNumber := sn2 } }
    with hc2
  set row : Row := ⟨bt, pov, [(r, [c1, c2])], ["images"]⟩ with hrow
  have h1 : putFromImages [] e =
      [(createPOVKey bt pov, ⟨bt, pov, [(r, [c1])], ["images"]⟩)] := by
    unfold putFromImages
    rw [if_neg hart]
    rw [show e.pov.isNone = false from by rw [hpov]; rfl]
    rw [show isAllowedType e.imageType = true from hat]
    simp only [Bool.false_eq_true, if_false, Bool.not_true]
    unfold putCandidate
    rw [hpov]
    dsimp only
    rw [hat]
    rw [hbt]
    dsimp only
    rw [hrend]
    dsimp only [ensureRow, List.lookup]
    dsimp only [updateRow, List.map]
    simp [pushRendition, addToSet, strOr, hc1]
  have h2 : extractRows
      ⟨[e, { e with pov := some { pov with serialNumber := sn2 } }], []⟩ =
      [(createPOVKey bt pov, row)] := by
    unfold extractRows
    dsimp only [List.foldl]
    rw [h1]
    unfold putFromImages
    dsimp only
    rw [if_neg hart]
    simp only [Option.isNone_some, Bool.false_eq_true, if_false]
    rw [show isAllowedType e.imageType = true from hat]
    simp only [Bool.not_true, Bool.false_eq_true, if_false]
    unfold putCandidate
    dsimp only
    rw [hat]
    rw [hbt]
    dsimp only
    rw [hrend]
    rw [show createPOVKey bt { pov with serialNumber := sn2 } =
      createPOVKey bt pov from rfl]
    dsimp only [ensureRow, List.lookup]
    simp only [beq_self_eq_true]
    dsimp only [updateRow, List.map]
    simp [pushRendition, addToSet, strOr, hrow, hc1, hc2]
    rfl
  have hpick : pickBestAt row r = some c1 := by
    unfold pickBestAt
    rw [hrow]
    dsimp only [List.lookup]
    simp only [beq_self_eq_true]
    unfold pickBest jsSort
    simp only [List.insertionSort, List.orderedInsert]
    rw [if_pos (show (scoreDescLE c1 c2) = true from
      decide_eq_true (le_of_eq rfl))]
    rfl
  have hscore : scoreCandidate c1 = scoreCandidate c2 := rfl
  refine ⟨createPOVKey bt pov, row, c1, c2, h2, rfl, rfl, hscore, hpick, ?_⟩
  intro inspId orig
  have hnums : renditionNumsOf row = [r] := by
    rw [hrow]
    simp [renditionNumsOf, jsSort, List.insertionSort]
  refine ⟨buildGroupCore inspId orig (createPOVKey bt pov) row r [], ?_, ?_, ?_⟩
  · unfold buildGroup
    rw [hnums]
  · show ((pickBestAt row r).map rendDataOfCandidate) = _
    rw [hpick]
    rfl
  · rfl

/-- Witness for C5: a concrete inspection whose counts differ produces
exactly one mismatch entry with positive difference. -/
theorem validator_mismatch_iff_witness :
    mC5b ∈ (validateMetricsAlignment [procC5b]).mismatches ∧
    0 < mC5b.difference ∧
    ((validateMetricsAlignment [procC5b]).mismatches ≠ [] ↔
      metricsCountOf procC5b ≠ (cardCountsOf procC5b.comparisons).1) :=
  ⟨by decide, validator_mismatch_iff.1 [procC5b] mC5b (by decide),
   validator_mismatch_iff.2 procC5b⟩

/-- Witness for C7 on a concrete entry with serial numbers 1 and 2. -/
theorem serial_number_collapse_witness :
    entryW7.pov = some povFLserial ∧
    entryW7.imageType ≠ some "Artemis" ∧
    isAllowedType entryW7.imageType = true ∧
    entryW7.rendition.getD (some 3) = some 3 ∧
    (∃ key row c1 c2,
      extractRows
          ⟨[entryW7,
            { entryW7 with
              pov := some { povFLserial with serialNumber := some 2 } }],
           []⟩ =
        [(key, row)] ∧
      row.renditions = [((3 : ℚ), [c1, c2])] ∧
      c2 = { c1 with pov := { povFLserial with serialNumber := some 2 } } ∧
      scoreCandidate c1 = scoreCandidate c2 ∧
      pickBestAt row 3 = some c1 ∧
      (∀ (inspId : String) (orig : List (String × OriginalEntry)),
        ∃ g, buildGroup inspId orig key row = some g ∧
          g.metadata.renditionData1 = some (rendDataOfCandidate c1) ∧
          g.metadata.renditionData0 = none)) :=
  ⟨rfl, by decide, by decide, rfl,
   serial_number_collapse entryW7 povFLserial (some 2) 3 rfl (by decide)
     (by decide) rfl⟩

end ImageComparison
